import Mathlib

set_option maxRecDepth 100000

/-!
Verification development for the comapeo-category-editor configuration
normalization and format-conversion subsystem.

The embedding models the JavaScript/TypeScript code of
`src/client/src/lib/file-handling.ts`, `src/client/src/lib/store.ts` and the
Mapeo-to-CoMapeo converter (`convertMapeoToCoMapeo` and its helpers), as a
shallow embedding over a JSON value type.  JavaScript semantics that matter
here — truthiness, `Object.entries` insertion order, `||` defaulting, object
spread, 32-bit coercion of `<<` and `&`, `parseInt(s, 8)` — are modelled
explicitly.  JSON documents are represented already parsed (`JSON.parse` /
`JSON.stringify` hand-offs between components are identities on the value);
`new Date().toISOString()` is passed in as an explicit `now : String`
parameter.  Numbers are modelled as integers (all numeric data touched by the
modelled code paths is integral).
-/

/-- JSON value, as produced by `JSON.parse`.  Object entries keep insertion
order, matching JavaScript's iteration order for string (non-index) keys. -/
inductive JValue where
  | null : JValue
  | bool (b : Bool) : JValue
  | num (n : Int) : JValue
  | str (s : String) : JValue
  | arr (elems : List JValue) : JValue
  | obj (entries : List (String × JValue)) : JValue
deriving Repr

mutual

/-- Structural equality test on JSON values. -/
def jbeq : JValue → JValue → Bool
  | .null, .null => true
  | .bool a, .bool b => a == b
  | .num a, .num b => a == b
  | .str a, .str b => a == b
  | .arr a, .arr b => jbeqList a b
  | .obj a, .obj b => jbeqKvs a b
  | _, _ => false

/-- Structural equality test on lists of JSON values. -/
def jbeqList : List JValue → List JValue → Bool
  | [], [] => true
  | a :: as, b :: bs => jbeq a b && jbeqList as bs
  | _, _ => false

/-- Structural equality test on object entry lists. -/
def jbeqKvs : List (String × JValue) → List (String × JValue) → Bool
  | [], [] => true
  | (k, v) :: as, (l, w) :: bs => k == l && jbeq v w && jbeqKvs as bs
  | _, _ => false

end

/-- JavaScript truthiness of a value. -/
def truthy : JValue → Bool
  | .null => false
  | .bool b => b
  | .num n => n != 0
  | .str s => s != ""
  | .arr _ => true
  | .obj _ => true

/-- Truthiness of an optional value (`undefined` is falsy). -/
def truthyO : Option JValue → Bool
  | none => false
  | some v => truthy v

/-- First binding of a key in an association list (JavaScript object keys are
unique, every construction below preserves that). -/
def jlookup : List (String × JValue) → String → Option JValue
  | [], _ => none
  | (k, v) :: rest, key => if k = key then some v else jlookup rest key

/-- Property read `x.k`: `undefined` on primitives (reading a property of
`null`/`undefined` would throw in JavaScript; the modelled code only reads
properties of non-null values on the paths exercised here, and string
index/`length` properties are never read). -/
def jget : JValue → String → Option JValue
  | .obj kvs, key => jlookup kvs key
  | _, _ => none

/-- JavaScript property assignment `o[k] = v`: updates the value in place if
the key exists (keeping its position), otherwise appends the key. -/
def setKey : List (String × JValue) → String → JValue → List (String × JValue)
  | [], key, v => [(key, v)]
  | (k, w) :: rest, key, v =>
      if k = key then (k, v) :: rest else (k, w) :: setKey rest key v

/-- The `x || d` defaulting idiom on a possibly-undefined value. -/
def jor (x : Option JValue) (d : JValue) : JValue :=
  match x with
  | some v => if truthy v then v else d
  | none => d

/-- Numeric value of a digit string (callers have checked the digits). -/
def keyNatVal (cs : List Char) : Nat :=
  cs.foldl (fun a c => a * 10 + (c.toNat - 48)) 0

/-- Canonical array-index keys: `"0"`, or a nonzero digit followed by digits
with numeric value below `2^32 - 1`.  JavaScript's own-property order
([[OwnPropertyKeys]]) enumerates these before all other string keys. -/
def isIdxKey (s : String) : Bool :=
  match s.data with
  | [] => false
  | c :: cs =>
      if c = '0' then cs.isEmpty
      else c.isDigit && cs.all (fun d => d.isDigit) &&
        decide (keyNatVal (c :: cs) < 4294967295)

/-- Insertion of one integer-keyed entry into an ascending run. -/
def insertIdxKv (kv : String × JValue) : List (String × JValue) → List (String × JValue)
  | [] => [kv]
  | x :: xs =>
      if keyNatVal kv.1.data ≤ keyNatVal x.1.data then kv :: x :: xs
      else x :: insertIdxKv kv xs

/-- Insertion sort of integer-keyed entries by numeric key value. -/
def sortIdxKvs : List (String × JValue) → List (String × JValue)
  | [] => []
  | x :: xs => insertIdxKv x (sortIdxKvs xs)

/-- JavaScript's own-property enumeration order: the canonical array-index
keys first in ascending numeric order, then the remaining keys in insertion
order.  `for..in`, `Object.entries` and `JSON.stringify` all follow it. -/
def jsOrderKvs (kvs : List (String × JValue)) : List (String × JValue) :=
  sortIdxKvs (kvs.filter (fun kv => isIdxKey kv.1)) ++
    kvs.filter (fun kv => !isIdxKey kv.1)

/-- `Object.entries` / `for..in` over own enumerable properties: object
entries in JavaScript property order (integer-like keys first, ascending,
then insertion order), array elements under their index keys, string
characters under their index keys, nothing for other primitives. -/
def jentries : JValue → List (String × JValue)
  | .obj kvs => jsOrderKvs kvs
  | .arr xs => (List.range xs.length).zip xs |>.map (fun p => (toString p.1, p.2))
  | .str s => (List.range s.length).zip (s.data.map (fun c => JValue.str ⟨[c]⟩))
      |>.map (fun p => (toString p.1, p.2))
  | _ => []

mutual

/-- The document `JSON.parse(JSON.stringify(v))` yields: `stringify`
serializes object keys in JavaScript property order at every nesting level,
so integer-like keys migrate to the front of each object. -/
def jnorm : JValue → JValue
  | .obj kvs => .obj (jsOrderKvs (jnormKvs kvs))
  | .arr xs => .arr (jnormList xs)
  | v => v

def jnormList : List JValue → List JValue
  | [] => []
  | x :: xs => jnorm x :: jnormList xs

def jnormKvs : List (String × JValue) → List (String × JValue)
  | [] => []
  | (k, v) :: kvs => (k, jnorm v) :: jnormKvs kvs

end

mutual

/-- No object key anywhere in the document is an array-index key (such a
document is left unchanged by `jnorm`). -/
def idxFree : JValue → Bool
  | .obj kvs => idxFreeKvs kvs
  | .arr xs => idxFreeList xs
  | _ => true

def idxFreeList : List JValue → Bool
  | [] => true
  | x :: xs => idxFree x && idxFreeList xs

def idxFreeKvs : List (String × JValue) → Bool
  | [] => true
  | (k, v) :: kvs => !isIdxKey k && idxFree v && idxFreeKvs kvs

end

/-- The `k in o` operator: own-or-inherited property existence.  Modelled as
own-key membership for objects (the inherited properties of plain JSON objects
are never probed by the modelled code) and `false` otherwise. -/
def jhas (v : JValue) : String → Bool
  | key => match v with
    | .obj kvs => (jlookup kvs key).isSome
    | _ => false

/-- Test whether `typeof x === 'object'` holds (`null` also satisfies it in
JavaScript, callers always guard with truthiness first). -/
def isObjLike : JValue → Bool
  | .obj _ => true
  | .arr _ => true
  | .null => true
  | _ => false

/-- Test for `Array.isArray`. -/
def isArr : JValue → Bool
  | .arr _ => true
  | _ => false

/-- Keys of an object spread `{...x}`: own enumerable entries of objects;
primitives contribute nothing (strings would contribute index keys, which no
modelled call site ever spreads). -/
def spreadKvs : JValue → List (String × JValue)
  | .obj kvs => kvs
  | _ => []

/-- Object merge `{...a, ...b}`. -/
def jmerge (a b : JValue) : JValue :=
  .obj ((spreadKvs b).foldl (fun acc kv => setKey acc kv.1 kv.2) (spreadKvs a))

/-- The `{ id: k, ...body }` construction used when converting an object map
to an array: the key is injected first, but a spread `id` property of the body
overwrites its value (keeping the first position). -/
def spreadWithId (k : String) (body : JValue) : JValue :=
  match body with
  | .obj kvs =>
      .obj (("id", (jlookup kvs "id").getD (.str k)) ::
        kvs.filter (fun kv => kv.1 ≠ "id"))
  | _ => .obj [("id", .str k)]

/-- Object literal whose fields may be `undefined`: `undefined` entries are
dropped (the constructed drafts are passed through `JSON.stringify`, which
drops `undefined`-valued properties). -/
def mkObjD (l : List (String × Option JValue)) : JValue :=
  .obj (l.filterMap (fun kv => kv.2.map (fun v => (kv.1, v))))

/-! String helpers mirroring the JavaScript string operations used by the
conversion code.  Characters are handled as Unicode scalars; the inputs the
code deals with are BMP text, where `charCodeAt` agrees with `Char.toNat`. -/

/-- Double-quote character. -/
def dq : Char := Char.ofNat 34

/-- Apostrophe character. -/
def apos : Char := Char.ofNat 39

/-- Characters matched by the regexp class `\s` (ASCII portion; the modelled
inputs contain no exotic Unicode spaces). -/
def isWsChar (c : Char) : Bool :=
  c = ' ' || c = Char.ofNat 9 || c = Char.ofNat 10 || c = Char.ofNat 13 ||
    c = Char.ofNat 11 || c = Char.ofNat 12

/-- Lower-casing as done by `String.prototype.toLowerCase` (ASCII-faithful). -/
def jsLower (s : String) : String := ⟨s.data.map Char.toLower⟩

/-- Replacement of every maximal whitespace run by `_`, as done by
`.replace(/\s+/g, "_")`. -/
def collapseWsAux : Bool → List Char → List Char
  | _, [] => []
  | prevWs, c :: rest =>
      if isWsChar c then
        if prevWs then collapseWsAux true rest
        else '_' :: collapseWsAux true rest
      else c :: collapseWsAux false rest

/-- The option-value slug `s.toLowerCase().replace(/\s+/g, "_")`. -/
def slugify (s : String) : String := ⟨collapseWsAux false (jsLower s).data⟩

/-- Key cleanup `key.replace(/["']/g, "")`: every double quote and apostrophe
anywhere in the string is removed. -/
def stripQA (s : String) : String := ⟨s.data.filter (fun c => c ≠ dq && c ≠ apos)⟩

/-- Key cleanup `optKey.replace(/^\"|\"/g, "")`: the second alternative of the
pattern matches any double quote, so every double quote is removed. -/
def stripAllDq (s : String) : String := ⟨s.data.filter (fun c => c ≠ dq)⟩

/-- Key cleanup `value.replace(/^\"|\"$/g, "")`: one leading and one trailing
double quote are stripped; interior quotes stay. -/
def stripLeadTrailDq (s : String) : String :=
  let l := if s.data.head? = some dq then s.data.tail else s.data
  ⟨if l.getLast? = some dq then l.dropLast else l⟩

/-- Splitting a character list at a separator, as `String.prototype.split`
with a single-character separator. -/
def splitOnChar (sep : Char) : List Char → List (List Char)
  | [] => [[]]
  | c :: rest =>
      match splitOnChar sep rest with
      | [] => [[]]
      | g :: gs => if c = sep then [] :: g :: gs else (c :: g) :: gs

/-- JavaScript `s.split(sep)` for a one-character separator. -/
def jsSplit (s : String) (sep : Char) : List String :=
  (splitOnChar sep s.data).map (fun cs => ⟨cs⟩)

/-- JavaScript `s.includes(c)` for a one-character needle. -/
def jsIncludesChar (s : String) (c : Char) : Bool := s.data.contains c

/-- Prefix test on strings via their character lists. -/
def strStarts (p s : String) : Bool := p.data.isPrefixOf s.data

/-- Suffix test on strings via their character lists. -/
def strEnds (suf s : String) : Bool := suf.data.isSuffixOf s.data

/-- Last `/`-separated segment of a path: `path.split("/").pop() || ""`. -/
def lastSegment (s : String) : String := (jsSplit s '/').getLastD ""

/-- Removal of the first occurrence of a pattern, as
`String.prototype.replace` with a plain-string pattern and empty replacement. -/
def removeFirstOcc (pat : List Char) : List Char → List Char
  | [] => []
  | c :: rest =>
      if pat.isPrefixOf (c :: rest) then (rest.drop (pat.length - 1))
      else c :: removeFirstOcc pat rest

/-- JavaScript `s.replace(pat, "")` for a plain-string pattern. -/
def jsRemoveFirst (s pat : String) : String := ⟨removeFirstOcc pat.data s.data⟩

/-- JavaScript `String(x)` conversion, fuel-driven so that it reduces
definitionally (the fuel bounds array nesting depth and is ample for any
value the modelled code stringifies; arrays stringify by `join(",")`, whose
`null` elements become empty strings). -/
def jsToStringFuel : Nat → JValue → String
  | _, .null => "null"
  | _, .bool b => cond b "true" "false"
  | _, .num n => toString n
  | _, .str s => s
  | 0, .arr _ => ""
  | fuel + 1, .arr xs =>
      String.intercalate ","
        (xs.map (fun x =>
          match x with
          | .null => ""
          | y => jsToStringFuel fuel y))
  | _, .obj _ => "[object Object]"

/-- JavaScript `String(x)`. -/
def jsToString (v : JValue) : String := jsToStringFuel 1000 v

/-- Hex digit characters as produced by `Number.prototype.toString(16)`
(lower case). -/
def hexDigit (n : Nat) : Char :=
  if n < 10 then Char.ofNat (48 + n) else Char.ofNat (87 + n)

/-- Hexadecimal representation of a natural number (fuel-driven so that it
reduces definitionally; the fuel is ample for every value produced by the
24-bit mask below). -/
def hexRep : Nat → Nat → List Char
  | 0, _ => []
  | fuel + 1, n => if n < 16 then [hexDigit n] else hexRep fuel (n / 16) ++ [hexDigit (n % 16)]

/-- JavaScript `n.toString(16)` for a non-negative integer. -/
def jsHexString (n : Nat) : String := ⟨hexRep 32 n⟩

/-- JavaScript `s.padStart(6, "0")`. -/
def padStart6 (s : String) : String :=
  ⟨List.replicate (6 - s.length) '0' ++ s.data⟩

/-- Coercion `ToInt32` applied by the JavaScript `<<` and `&` operators. -/
def toInt32 (x : Int) : Int := (x + 2 ^ 31) % 2 ^ 32 - 2 ^ 31

/-- JavaScript `acc << 5`: `ToInt32(acc)` shifted left by five with 32-bit
wrap-around, which equals `ToInt32(acc * 32)`. -/
def jsShl5 (acc : Int) : Int := toInt32 (acc * 32)

/-- One step of the preset-color hash:
`acc = char.charCodeAt(0) + ((acc << 5) - acc)`.  Only the shift coerces to
32 bits; the subtraction and addition are exact (the accumulator stays far
inside the range where JavaScript doubles are exact for any realistic id). -/
def hashStep (acc : Int) (c : Char) : Int := (c.toNat : Int) + (jsShl5 acc - acc)

/-- The hash `preset.id.split("").reduce(..., 0)`. -/
def hashId (s : String) : Int := s.data.foldl hashStep 0

/-- The 24-bit mask `hash & 0x00ffffff`: bitwise AND on the 32-bit two's
complement representation keeps the low 24 bits, i.e. the value modulo
`2 ^ 24` (non-negative). -/
def maskedHash (s : String) : Int := hashId s % 2 ^ 24

/-- The derived preset color:
`"#" + (hash & 0x00ffffff).toString(16).padStart(6, "0")`. -/
def deriveColor (id : String) : String :=
  "#" ++ padStart6 (jsHexString (maskedHash id).toNat)

/-! Model of the Mapeo-to-CoMapeo converter (`convertMapeoToCoMapeo` and its
helpers in the conversion module, current variant). -/

/-- The canonical configuration object assembled by the converter and by
`importConfig` (shape of the TypeScript `CoMapeoConfig`). -/
structure ConfigState where
  metadata : JValue
  fields : JValue
  presets : JValue
  translations : JValue
  icons : JValue
deriving Repr

/-- Conversion of the metadata section (`convertMetadata`). -/
def convertMetadata (m : Option JValue) (now : String) : JValue :=
  let v0 := m.bind (fun x => jget x "version")
  let version : JValue :=
    if truthyO v0 then
      match v0 with
      | some (.str s) => if strStarts "v" s then .str ⟨s.data.drop 1⟩ else .str s
      | some w => w
      | none => .str "1.0.0"
    else .str "1.0.0"
  let nameV := m.bind (fun x => jget x "name")
  let dsV := m.bind (fun x => jget x "dataset_id")
  .obj [("name", if truthyO nameV then nameV.getD .null else .str "converted-mapeo-config"),
        ("version", version),
        ("fileVersion", .str "1"),
        ("buildDate", .str now),
        ("description",
          if truthyO dsV then
            .str ("Converted from Mapeo dataset: " ++ jsToString (dsV.getD .null))
          else .str "Converted from Mapeo configuration")]

/-- The fallback field emitted when an entry of the fields array is not an
object. -/
def defaultUnknownField : JValue :=
  .obj [("id", .str "unknown"), ("name", .str "Unknown Field"), ("tagKey", .str "unknown"),
        ("type", .str "text"), ("universal", .bool false), ("helperText", .str "")]

/-- Field-type normalization: `let type = field.type || "text"`, the
`select_one`/`select_many` remap applies to strings, any non-string value
falls back to `"text"`. -/
def convertFieldType (t0 : Option JValue) : String :=
  match jor t0 (.str "text") with
  | .str s =>
      if s = "select_one" then "selectOne"
      else if s = "select_many" then "selectMany"
      else s
  | _ => "text"

/-- Conversion of one element of an array-shaped `options` value. -/
def convertOptionElem (opt : JValue) : JValue :=
  match opt with
  | .str s => .obj [("label", .str s), ("value", .str (slugify s))]
  | _ =>
      if truthy opt && isObjLike opt then
        let label :=
          match jget opt "label" with
          | some (.str s) => s
          | _ =>
              match jget opt "name" with
              | some (.str s) => s
              | _ => jsToString opt
        let value :=
          match jget opt "value" with
          | some (.str s) => s
          | _ => slugify label
        .obj [("label", .str label), ("value", .str value)]
      else
        let s := jsToString (jor (some opt) (.str ""))
        .obj [("label", .str s), ("value", .str (slugify s))]

/-- Conversion of one entry of an object-shaped `options` value: the key is
stripped of one leading and one trailing quote, the label comes from the
value (or its `label`/`name` member), the slug of the cleaned key becomes the
option value. -/
def convertOptionEntry (k : String) (label : JValue) : JValue :=
  let cleanValue := stripLeadTrailDq k
  let labelText :=
    match label with
    | .str s => s
    | _ =>
        if truthy label && isObjLike label then
          match jget label "label" with
          | some (.str s) => s
          | _ =>
              match jget label "name" with
              | some (.str s) => s
              | _ => cleanValue
        else cleanValue
  .obj [("label", .str labelText), ("value", .str (slugify cleanValue))]

/-- Conversion of a single legacy field record (the mapper body of
`convertFields`). -/
def convertField (f : JValue) : JValue :=
  if !truthy f || !isObjLike f then defaultUnknownField
  else
    let typeStr := convertFieldType (jget f "type")
    let fieldId :=
      match jget f "id" with
      | some (.str s) => s
      | other => jsToString (jor other (.str ""))
    let fieldName :=
      match jget f "label" with
      | some (.str s) => s
      | _ =>
          match jget f "name" with
          | some (.str s) => s
          | _ => fieldId
    let fieldKey :=
      match jget f "key" with
      | some (.str s) => s
      | _ => fieldId
    let helper :=
      match jget f "placeholder" with
      | some (.str s) => s
      | _ => ""
    let base := [("id", JValue.str fieldId), ("name", JValue.str fieldName),
      ("tagKey", JValue.str fieldKey), ("type", JValue.str typeStr),
      ("universal", JValue.bool (truthyO (jget f "universal"))),
      ("helperText", JValue.str helper)]
    match jget f "options" with
    | some opts =>
        if truthy opts then
          let optList : JValue :=
            match opts with
            | .arr xs => .arr (xs.map convertOptionElem)
            | .obj kvs => .arr (kvs.map (fun kv => convertOptionEntry kv.1 kv.2))
            | _ => .arr []
          .obj (base ++ [("options", optList)])
        else .obj base
    | none => .obj base

/-- Array-ification shared by `convertFields` and `convertPresets`: arrays
pass through, object maps become `Object.entries(x).map(([id, v]) => ({ id, ...v }))`. -/
def arrayify (x : JValue) : List JValue :=
  match x with
  | .arr xs => xs
  | _ => (jentries x).map (fun kv => spreadWithId kv.1 kv.2)

/-- Conversion of the fields section (`convertFields`). -/
def convertFields (v : Option JValue) : JValue :=
  match v with
  | none => .arr []
  | some x => if truthy x then .arr ((arrayify x).map convertField) else .arr []

/-- Extraction of `preset.id` for the hash: `preset.id.split("")` throws
unless the id is a string (reading `.id` of `null` throws as well). -/
def getStringId (p : JValue) : Except Unit String :=
  match p with
  | .obj kvs =>
      match jlookup kvs "id" with
      | some (.str s) => .ok s
      | _ => .error ()
  | _ => .error ()

/-- The converted preset record (mapper body of `convertPresets`). -/
def convertPresetBody (i : String) (p : JValue) : JValue :=
  .obj [("id", .str i),
        ("name", jor (jget p "name") (.str i)),
        ("tags", jor (jget p "tags") (.obj [])),
        ("color", .str (deriveColor i)),
        ("icon", jor (jget p "icon") (.str "default")),
        ("fieldRefs", jor (jget p "fields") (.arr [])),
        ("removeTags", jor (jget p "removeTags") (.obj [])),
        ("addTags", jor (jget p "addTags") (.obj [])),
        ("geometry", jor (jget p "geometry") (.arr [.str "point"]))]

/-- Sequential conversion of the presets array; the first entry without a
string id aborts with the exception the caller catches. -/
def convertPresetsList : List JValue → Except Unit (List JValue)
  | [] => .ok []
  | p :: rest =>
      match getStringId p with
      | .error e => .error e
      | .ok i =>
          match convertPresetsList rest with
          | .error e => .error e
          | .ok r => .ok (convertPresetBody i p :: r)

/-- Conversion of the presets section (`convertPresets`). -/
def convertPresets (v : Option JValue) : Except Unit JValue :=
  match v with
  | none => .ok (.arr [])
  | some x =>
      if truthy x then
        match convertPresetsList (arrayify x) with
        | .error e => .error e
        | .ok l => .ok (.arr l)
      else .ok (.arr [])

/-- The nested-path write of the flat-translation loop:
walks `parts`, descending into existing objects, replacing falsy intermediate
values by fresh objects, and writes the value at the last segment.  A truthy
non-object intermediate makes the eventual property write throw in strict
mode (arrays would absorb the write into a property that JSON serialization
drops); both are modelled as the thrown case and are not exercised by the
claims. -/
def insertPath : List (String × JValue) → List String → JValue → Except Unit (List (String × JValue))
  | kvs, [], _ => .ok kvs
  | kvs, [lastPart], v => .ok (setKey kvs lastPart v)
  | kvs, p :: q :: rest, v =>
      match jlookup kvs p with
      | some (.obj inner) =>
          match insertPath inner (q :: rest) v with
          | .error e => .error e
          | .ok r => .ok (setKey kvs p (.obj r))
      | some w =>
          if truthy w then .error ()
          else
            match insertPath [] (q :: rest) v with
            | .error e => .error e
            | .ok r => .ok (setKey kvs p (.obj r))
      | none =>
          match insertPath [] (q :: rest) v with
          | .error e => .error e
          | .ok r => .ok (setKey kvs p (.obj r))

/-- One key of a flat per-locale translation document: quotes and apostrophes
are removed from the key, slash-delimited keys are written along their path,
plain keys are set directly. -/
def flatEntryStep (acc : List (String × JValue)) (kv : String × JValue) :
    Except Unit (List (String × JValue)) :=
  let cleanKey := stripQA kv.1
  if jsIncludesChar cleanKey '/' then insertPath acc (jsSplit cleanKey '/') kv.2
  else .ok (setKey acc cleanKey kv.2)

/-- Left fold of the flat-translation loop over the document entries. -/
def flatFold : List (String × JValue) → List (String × JValue) →
    Except Unit (List (String × JValue))
  | acc, [] => .ok acc
  | acc, kv :: rest =>
      match flatEntryStep acc kv with
      | .error e => .error e
      | .ok acc2 => flatFold acc2 rest

/-- Conversion of a single locale entry.  In the nested form the output is a
deep copy of the input; the quoted-option-key cleanup loop that follows in
the source mutates the input object after the copy was taken, so the returned
value is the document unchanged. -/
def convertLangEntry (tr : JValue) : Except Unit JValue :=
  if truthy tr && isObjLike tr then
    if truthyO (jget tr "fields") || truthyO (jget tr "presets") then .ok tr
    else
      match flatFold [] (jentries tr) with
      | .error e => .error e
      | .ok r => .ok (.obj r)
  else .ok (.obj [])

/-- Conversion of every locale entry in order; the first thrown entry aborts
the conversion. -/
def convertLangList : List (String × JValue) → Except Unit (List (String × JValue))
  | [] => .ok []
  | kv :: rest =>
      match convertLangEntry kv.2 with
      | .error e => .error e
      | .ok w =>
          match convertLangList rest with
          | .error e => .error e
          | .ok r => .ok ((kv.1, w) :: r)

/-- Conversion of the translations section (`convertTranslations`). -/
def convertTranslations (t : Option JValue) : Except Unit JValue :=
  match t with
  | none => .ok (.obj [])
  | some x =>
      if truthy x then
        match convertLangList (jentries x) with
        | .error e => .error e
        | .ok l => .ok (.obj l)
      else .ok (.obj [])

/-- The converter entry point (`convertMapeoToCoMapeo`).  The special case
for `presets.json` holding both sections tests
`!fields && !presets && mapeoConfig.presets && mapeoConfig.presets.fields`,
whose second and third conjuncts exclude each other, so it never fires; it is
kept as written. -/
def convertMapeoToCoMapeo (m : JValue) (now : String) : Except Unit ConfigState :=
  let fields0 := jget m "fields"
  let presets0 := jget m "presets"
  let special := !truthyO fields0 && !truthyO presets0 && truthyO presets0 &&
    truthyO (presets0.bind (fun p => jget p "fields"))
  let fields1 := if special then presets0.bind (fun p => jget p "fields") else fields0
  let presets1 := if special then presets0.bind (fun p => jget p "presets") else presets0
  match convertPresets presets1 with
  | .error e => .error e
  | .ok pr =>
      match convertTranslations (jget m "translations") with
      | .error e => .error e
      | .ok tr =>
          .ok { metadata := convertMetadata (jget m "metadata") now,
                fields := convertFields fields1,
                presets := pr,
                translations := tr,
                icons := jor (jget m "icons") (.obj []) }

/-! Model of the configuration store (`src/client/src/lib/store.ts`, current
variant): `importConfig` with its per-file normalizers and Mapeo fallback,
and the editing actions. -/

/-- Content of an extracted file.  `json v` stands for a string content whose
`JSON.parse` yields `v`; `text`/`binary` contents fail JSON parsing (binary
content is replaced by the empty string first, which also fails). -/
inductive FileContent where
  | text (s : String) : FileContent
  | json (v : JValue) : FileContent
  | binary (bytes : List Nat) : FileContent
deriving Repr

/-- An entry of the extracted-file list (TypeScript `ConfigFile`). -/
structure CFile where
  name : String
  path : String
  content : FileContent
deriving Repr

/-- Preset record built when a presets document arrives as an object map
(shared by the unified-config and the per-file branch of `importConfig`). -/
def normalizePresetEntry (id : String) (presetData : JValue) : JValue :=
  .obj [("id", .str id),
        ("name", jor (jget presetData "name") (.str id)),
        ("tags", jor (jget presetData "tags") (.obj [])),
        ("color", jor (jget presetData "color") (.str "#000000")),
        ("icon", jor (jget presetData "icon") (.str "default")),
        ("fieldRefs", jor (jget presetData "fields") (jor (jget presetData "fieldRefs") (.arr []))),
        ("removeTags", jor (jget presetData "removeTags") (.obj [])),
        ("addTags", jor (jget presetData "addTags") (.obj [])),
        ("geometry", jor (jget presetData "geometry") (.arr [.str "point"]))]

/-- Normalization of a parsed `presets.json` document in the per-file branch:
arrays pass through, anything else goes through `Object.entries`, which
throws on `null`. -/
def normalizePresetsFile (v : JValue) : Except Unit JValue :=
  match v with
  | .arr xs => .ok (.arr xs)
  | .null => .error ()
  | other => .ok (.arr ((jentries other).map (fun kv => normalizePresetEntry kv.1 kv.2)))

/-- Field record built by the per-file branch for an object-map
`fields.json`.  A missing raw `type` leaves the property `undefined`, which
every later read treats like an absent key; the model drops it. -/
def normalizeFieldEntry (id : String) (fieldData : JValue) : JValue :=
  mkObjD [("id", some (.str id)),
          ("name", some (jor (jget fieldData "label") (.str id))),
          ("tagKey", some (jor (jget fieldData "tagKey")
            (jor (jget fieldData "key") (.str id)))),
          ("type", jget fieldData "type"),
          ("universal", some (.bool (truthyO (jget fieldData "universal")))),
          ("helperText", some (jor (jget fieldData "helperText")
            (jor (jget fieldData "placeholder") (.str "")))),
          ("options", some (match jget fieldData "options" with
            | some (.arr xs) => .arr xs
            | _ => .arr []))]

/-- Normalization of a parsed `fields.json` document in the per-file branch. -/
def normalizeFieldsFile (v : JValue) : Except Unit JValue :=
  match v with
  | .arr xs => .ok (.arr xs)
  | .null => .error ()
  | other => .ok (.arr ((jentries other).map (fun kv => normalizeFieldEntry kv.1 kv.2)))

/-- The per-file loop body of `importConfig`: each recognized component file
overwrites its section; a parse or normalization error leaves the section as
it was (the per-file `try`/`catch`). -/
def importFileStep (acc : ConfigState) (f : CFile) : ConfigState :=
  match f.content with
  | .json v =>
      if strEnds "metadata.json" f.path then { acc with metadata := v }
      else if strEnds "presets.json" f.path then
        match normalizePresetsFile v with
        | .ok p => { acc with presets := p }
        | .error _ => acc
      else if strEnds "fields.json" f.path then
        match normalizeFieldsFile v with
        | .ok p => { acc with fields := p }
        | .error _ => acc
      else if strEnds "translations.json" f.path then { acc with translations := v }
      else if strEnds "icons.json" f.path then { acc with icons := v }
      else acc
  | _ => acc

/-- Field record built by the unified-config branch for an object-map
`fields` section (no `key`/`placeholder` fallbacks here). -/
def unifiedFieldEntry (id : String) (fieldData : JValue) : JValue :=
  mkObjD [("id", some (.str id)),
          ("name", some (jor (jget fieldData "label") (.str id))),
          ("tagKey", jget fieldData "tagKey"),
          ("type", jget fieldData "type"),
          ("universal", some (.bool (truthyO (jget fieldData "universal")))),
          ("helperText", some (jor (jget fieldData "helperText") (.str ""))),
          ("options", some (match jget fieldData "options" with
            | some (.arr xs) => .arr xs
            | _ => .arr []))]

/-- Extraction from a parsed unified `config.json` (the `configFile` branch
of `importConfig`). -/
def importFromUnified (parsed : JValue) (acc0 : ConfigState) : ConfigState :=
  let acc1 :=
    match jget parsed "fields" with
    | some fv =>
        if truthy fv then
          { acc0 with fields :=
            match fv with
            | .arr xs => .arr xs
            | other => .arr ((jentries other).map (fun kv => unifiedFieldEntry kv.1 kv.2)) }
        else acc0
    | none => acc0
  let acc2 :=
    match jget parsed "presets" with
    | some pv =>
        if truthy pv then
          { acc1 with presets :=
            match pv with
            | .arr xs => .arr xs
            | other => .arr ((jentries other).map (fun kv => normalizePresetEntry kv.1 kv.2)) }
        else acc1
    | none => acc1
  let acc3 :=
    match jget parsed "translations" with
    | some tv => if truthy tv then { acc2 with translations := tv } else acc2
    | none => acc2
  let acc4 :=
    match jget parsed "metadata" with
    | some mv => if truthy mv then { acc3 with metadata := mv } else acc3
    | none => acc3
  match jget parsed "icons" with
  | some iv => if truthy iv then { acc4 with icons := iv } else acc4
  | none => acc4

/-- Safe re-formatting of one array option in the post-conversion cleanup. -/
def safeOptionElem (opt : JValue) : JValue :=
  match opt with
  | .str s => .obj [("label", .str s), ("value", .str (slugify s))]
  | _ =>
      if truthy opt && isObjLike opt then
        .obj [("label", match jget opt "label" with
                | some (.str s) => .str s
                | o => .str (jsToString (jor o (.str "")))),
              ("value", match jget opt "value" with
                | some (.str s) => .str s
                | o => .str (slugify (jsToString (jor o (.str "")))))]
      else
        .obj [("label", .str (jsToString (jor (some opt) (.str "")))),
              ("value", .str (slugify (jsToString (jor (some opt) (.str "")))))]

/-- Safe re-formatting of one object-map option in the post-conversion
cleanup. -/
def safeOptionEntry (key : String) (v : JValue) : JValue :=
  match v with
  | .str s => .obj [("label", .str s), ("value", .str (slugify key))]
  | _ =>
      if truthy v && isObjLike v && jhas v "label" then
        .obj [("label", match jget v "label" with
                | some (.str s) => .str s
                | o => .str (jsToString (jor o (.str key)))),
              ("value", .str (slugify key))]
      else .obj [("label", .str key), ("value", .str (slugify key))]

/-- The `safeField` re-formatting applied to every converted field after a
successful Mapeo conversion. -/
def safeField (field : JValue) : JValue :=
  let base := [
    ("id", JValue.str (match jget field "id" with
      | some (.str s) => s
      | o => jsToString (jor o (.str "")))),
    ("name", JValue.str (match jget field "name" with
      | some (.str s) => s
      | _ => jsToString (jor (jget field "name") (jor (jget field "id") (.str ""))))),
    ("tagKey", JValue.str (match jget field "tagKey" with
      | some (.str s) => s
      | _ => jsToString (jor (jget field "tagKey") (jor (jget field "id") (.str ""))))),
    ("type", JValue.str (match jget field "type" with
      | some (.str s) => s
      | _ => "text")),
    ("universal", JValue.bool (truthyO (jget field "universal"))),
    ("helperText", JValue.str (match jget field "helperText" with
      | some (.str s) => s
      | _ => ""))]
  match jget field "options" with
  | some opts =>
      if truthy opts then
        match opts with
        | .arr xs => .obj (base ++ [("options", .arr (xs.map safeOptionElem))])
        | .obj kvs => .obj (base ++
            [("options", .arr (kvs.map (fun kv => safeOptionEntry kv.1 kv.2)))])
        | _ => .obj base
      else .obj base
  | none => .obj base

/-- Post-conversion cleanup of the fields array. -/
def postProcessFields (v : JValue) : JValue :=
  if truthy v then
    match v with
    | .arr xs => .arr (xs.map safeField)
    | other => other
  else v

/-- Objectification of an array-shaped options value inside a field-shaped
translation entry (first pass). -/
def fieldTransOptionsFromArr (xs : List JValue) : JValue :=
  .obj (xs.foldl (fun acc opt =>
    match opt with
    | .str s => setKey acc s (.str s)
    | _ =>
        if truthy opt && isObjLike opt && truthyO (jget opt "label") then
          setKey acc (jsToString (jor (jget opt "value") (jor (jget opt "label") .null)))
            (jor (jget opt "label") .null)
        else acc) [])

/-- Objectification of an object-shaped options value inside a field-shaped
translation entry. -/
def fieldTransOptionsFromObj (o : JValue) : JValue :=
  .obj ((jentries o).foldl (fun acc kv =>
    match kv.2 with
    | .str s => setKey acc kv.1 (.str s)
    | _ =>
        if truthy kv.2 && isObjLike kv.2 && truthyO (jget kv.2 "label") then
          setKey acc kv.1 (jor (jget kv.2 "label") .null)
        else setKey acc kv.1 (.str kv.1)) [])

/-- Coercion of a translation entry that is really a field object (has a
`key` or `type` property) into `{label, helperText, options}` form. -/
def coerceFieldLikeTrans (fieldKey : String) (fieldTrans : JValue) : JValue :=
  let optionsV : JValue :=
    match jget fieldTrans "options" with
    | some o =>
        if truthy o then
          match o with
          | .arr xs => fieldTransOptionsFromArr xs
          | .obj _ => fieldTransOptionsFromObj o
          | _ => .obj []
        else .obj []
    | none => .obj []
  .obj [("label", .str (match jget fieldTrans "label" with
          | some (.str s) => s
          | _ => fieldKey)),
        ("helperText", .str (match jget fieldTrans "placeholder" with
          | some (.str s) => s
          | _ => "")),
        ("options", optionsV)]

/-- Objectification of array options in the second translation pass (applied
when the entry was not field-shaped). -/
def fieldTransOptionsFromArr2 (xs : List JValue) : JValue :=
  .obj (xs.foldl (fun acc opt =>
    match opt with
    | .str s => setKey acc s (.str s)
    | _ =>
        if truthy opt && isObjLike opt then
          setKey acc
            (jsToString (jor (jget opt "value") (jor (jget opt "label") (.str (jsToString opt)))))
            (jor (jget opt "label") (.str (jsToString opt)))
        else acc) [])

/-- The per-field-key update of the translation post-processing.  When the
first branch rewrote the entry, the second pass mutates the detached old
object and has no further effect; otherwise the second pass objectifies an
array-shaped `options` in place. -/
def postFieldTrans (fieldKey : String) (fieldTrans : JValue) : JValue :=
  if truthy fieldTrans && isObjLike fieldTrans &&
      (jhas fieldTrans "key" || jhas fieldTrans "type") then
    coerceFieldLikeTrans fieldKey fieldTrans
  else
    match fieldTrans, jget fieldTrans "options" with
    | .obj kvs, some (.arr xs) => .obj (setKey kvs "options" (fieldTransOptionsFromArr2 xs))
    | _, _ => fieldTrans

/-- The per-locale step of the translation post-processing: iterates the
`fields` member when it is truthy.  For string-valued `fields` the loop body
never writes (character values fail both branch guards), so the value is
unchanged. -/
def postLangTrans (lt : JValue) : JValue :=
  match lt with
  | .obj kvs =>
      if truthyO (jlookup kvs "fields") then
        match jlookup kvs "fields" with
        | some (.obj fkvs) =>
            .obj (setKey kvs "fields"
              (.obj (fkvs.map (fun kv => (kv.1, postFieldTrans kv.1 kv.2)))))
        | some (.arr xs) =>
            .obj (setKey kvs "fields"
              (.arr (xs.enum.map (fun p => postFieldTrans (toString p.1) p.2))))
        | _ => .obj kvs
      else .obj kvs
  | other => other

/-- Post-conversion cleanup of the translations object. -/
def postProcessTranslations (t : JValue) : JValue :=
  if truthy t then
    match t with
    | .obj kvs => .obj (kvs.map (fun kv => (kv.1, postLangTrans kv.2)))
    | .arr xs => .arr (xs.enum.map (fun p => postLangTrans p.2))
    | other => other
  else t

/-- The fallback metadata used when nothing was imported (dead in practice:
the accumulator starts from a truthy empty object). -/
def defaultImportMetadata (now : String) : JValue :=
  .obj [("name", .str "New Configuration"), ("version", .str "1.0.0"),
        ("fileVersion", .str "1"), ("buildDate", .str now), ("description", .str "")]

/-- The placeholder configuration substituted when the Mapeo conversion
throws. -/
def fallbackMapeoConfig (now : String) : ConfigState :=
  { metadata := .obj [("name", .str "Converted Mapeo Configuration"),
      ("version", .str "1.0.0"), ("fileVersion", .str "1"), ("buildDate", .str now),
      ("description", .str "Converted from Mapeo configuration with errors")],
    fields := .arr [], presets := .arr [], translations := .obj [], icons := .obj [] }

/-- Property assignment on the metadata object (a primitive target would
throw in strict mode; never exercised). -/
def setProp (v : JValue) (k : String) (x : JValue) : JValue :=
  match v with
  | .obj kvs => .obj (setKey kvs k x)
  | other => other

/-- The configuration object handed to the converter (the
`config as unknown as MapeoConfig` cast passes the assembled object). -/
def configToJValue (c : ConfigState) : JValue :=
  .obj [("metadata", c.metadata), ("presets", c.presets), ("fields", c.fields),
        ("translations", c.translations), ("icons", c.icons)]

/-- The section-assembly phase of `importConfig`: the parsed unified
`config.json` when one exists and the archive is not a Mapeo one, otherwise
the per-file loop, followed by the defensive defaulting of each section. -/
def assembleImport (files : List CFile) (isMapeo : Bool) (now : String) : ConfigState :=
  let acc0 : ConfigState :=
    { metadata := .obj [], fields := .arr [], presets := .arr [],
      translations := .obj [], icons := .obj [] }
  let configFile := files.find? (fun f => strEnds "config.json" f.path)
  let acc :=
    match configFile, isMapeo with
    | some cf, false =>
        match cf.content with
        | .json parsed => importFromUnified parsed acc0
        | _ => acc0
    | _, _ => files.foldl importFileStep acc0
  { metadata := jor (some acc.metadata) (defaultImportMetadata now),
    fields := if isArr acc.fields then acc.fields else .arr [],
    presets := if isArr acc.presets then acc.presets else .arr [],
    translations := jor (some acc.translations) (.obj []),
    icons := jor (some acc.icons) (.obj []) }

/-- The `importConfig` store action: assembles the sections from either the
unified `config.json` or the individual component files, converts when the
archive was a Mapeo one (substituting the fallback configuration when the
conversion throws), and defaults a missing `buildDate`. -/
def importConfigFn (files : List CFile) (isMapeo : Bool) (now : String) : ConfigState :=
  let config1 := assembleImport files isMapeo now
  let config2 : ConfigState :=
    if isMapeo then
      match convertMapeoToCoMapeo (configToJValue config1) now with
      | .ok c => { c with fields := postProcessFields c.fields,
                          translations := postProcessTranslations c.translations }
      | .error _ => fallbackMapeoConfig now
    else config1
  if truthyO (jget config2.metadata "buildDate") then config2
  else { config2 with metadata := setProp config2.metadata "buildDate" (.str now) }

/-- State of the configuration store (the slice touched by the modelled
actions). -/
structure StoreState where
  config : Option ConfigState
  isMapeo : Bool
  rawFiles : List CFile
  activeTab : String
deriving Repr

/-- The `Array.isArray(x) ? x : []` defensive read used by the list-editing
actions. -/
def currentArr (v : JValue) : List JValue :=
  match v with
  | .arr l => l
  | _ => []

/-- The `preset.id === id` (or `field.id === id`) comparison. -/
def idMatches (p : JValue) (i : String) : Bool :=
  match jget p "id" with
  | some v => jbeq v (.str i)
  | none => false

/-- Store action `updateMetadata`. -/
def updateMetadata (st : StoreState) (updates : JValue) : StoreState :=
  match st.config with
  | none => st
  | some c => { st with config := some { c with metadata := jmerge c.metadata updates } }

/-- Store action `addPreset`. -/
def addPreset (st : StoreState) (preset : JValue) : StoreState :=
  match st.config with
  | none => st
  | some c =>
      { st with config := some { c with presets := .arr (currentArr c.presets ++ [preset]) } }

/-- Store action `updatePreset`. -/
def updatePreset (st : StoreState) (id : String) (updates : JValue) : StoreState :=
  match st.config with
  | none => st
  | some c =>
      { st with config := some { c with presets := .arr ((currentArr c.presets).map
          (fun p => if idMatches p id then jmerge p updates else p)) } }

/-- Store action `deletePreset`. -/
def deletePreset (st : StoreState) (id : String) : StoreState :=
  match st.config with
  | none => st
  | some c =>
      { st with config := some { c with presets := .arr ((currentArr c.presets).filter
          (fun p => !idMatches p id)) } }

/-- Store action `addField`. -/
def addField (st : StoreState) (field : JValue) : StoreState :=
  match st.config with
  | none => st
  | some c =>
      { st with config := some { c with fields := .arr (currentArr c.fields ++ [field]) } }

/-- Store action `updateField`. -/
def updateField (st : StoreState) (id : String) (updates : JValue) : StoreState :=
  match st.config with
  | none => st
  | some c =>
      { st with config := some { c with fields := .arr ((currentArr c.fields).map
          (fun p => if idMatches p id then jmerge p updates else p)) } }

/-- Store action `deleteField`. -/
def deleteField (st : StoreState) (id : String) : StoreState :=
  match st.config with
  | none => st
  | some c =>
      { st with config := some { c with fields := .arr ((currentArr c.fields).filter
          (fun p => !idMatches p id)) } }

/-- Store action `addLanguage`. -/
def addLanguage (st : StoreState) (locale : String) : StoreState :=
  match st.config with
  | none => st
  | some c =>
      let kvs := spreadKvs c.translations
      let kvs2 := if truthyO (jlookup kvs locale) then kvs else setKey kvs locale (.obj [])
      { st with config := some { c with translations := .obj kvs2 } }

/-- Store action `updateTranslation` (current variant with optional
`keyParts`): with more than one key part the value is written along the
nested path inside a deep copy of the locale document; otherwise the flat
locale entry is updated.  The nested write throws on a truthy non-object
locale document (strict mode), modelled by the error case. -/
def updateTranslation (st : StoreState) (locale key : String) (value : String)
    (keyParts : Option (List String)) : Except Unit StoreState :=
  match st.config with
  | none => .ok st
  | some c =>
      let nested : Bool := match keyParts with
        | some kp => kp.length > 1
        | none => false
      if nested then
        let kp := keyParts.getD []
        let base := jor (jget c.translations locale) (.obj [])
        let r0 :=
          match base with
          | .obj kvs => insertPath kvs kp (.str value)
          | _ => .error ()
        match r0 with
        | .error e => .error e
        | .ok r =>
            let translations := JValue.obj (setKey (spreadKvs c.translations) locale (.obj r))
            .ok { st with config := some { c with translations := translations } }
      else
        let inner := spreadKvs ((jget c.translations locale).getD .null)
        let translations := JValue.obj (setKey (spreadKvs c.translations) locale
          (.obj (setKey inner key (.str value))))
        .ok { st with config := some { c with translations := translations } }

/-- Store action `addIcon` (current variant: replaces an existing asset for
the same icon name and records the icon in the `icons` object). -/
def addIcon (st : StoreState) (iconName iconContent : String) (fileType : String) : StoreState :=
  match st.config with
  | none => st
  | some c =>
      let extension := jsLower fileType
      let fileName := iconName ++ "." ++ extension
      let filePath := "icons/" ++ fileName
      let idx := st.rawFiles.findIdx? (fun f =>
        f.path == filePath || strStarts ("icons/" ++ iconName ++ ".") f.path ||
          strStarts ("icons/" ++ iconName ++ "-") f.path)
      let afterRemove :=
        match idx with
        | some i => st.rawFiles.eraseIdx i
        | none => st.rawFiles
      let newRaw := afterRemove ++
        [{ name := fileName, path := filePath, content := .text iconContent }]
      let icons := JValue.obj (setKey (spreadKvs c.icons) iconName
        (.obj [("src", .str filePath)]))
      { st with rawFiles := newRaw, config := some { c with icons := icons } }

/-- Store action `updateIconsJson`. -/
def updateIconsJson (st : StoreState) (iconsJson : JValue) : StoreState :=
  match st.config with
  | none => st
  | some c => { st with config := some { c with icons := iconsJson } }

/-! Model of the legacy-tar reader (`extractTarFile`).  The first pass of the
source only counts entries for progress reporting and does not influence the
result; the modelled loop is the second (extracting) pass.  Bytes are decoded
to characters one-to-one (`String.fromCharCode` for names, UTF-8 text decode
for contents — faithful for the ASCII data involved). -/

/-- Substring containment, as `String.prototype.includes`. -/
def containsSubAux (pat : List Char) : List Char → Bool
  | [] => pat.isEmpty
  | c :: rest => pat.isPrefixOf (c :: rest) || containsSubAux pat rest

/-- JavaScript `s.includes(pat)`. -/
def containsSub (s pat : String) : Bool := containsSubAux pat.data s.data

/-- Null-terminated name from the first 100 header bytes. -/
def parseNameBytes (header : List Nat) : String :=
  ⟨((header.take 100).takeWhile (fun b => b ≠ 0)).map Char.ofNat⟩

/-- Size field, bytes 124–135, read until a NUL or space byte. -/
def parseSizeBytes (header : List Nat) : String :=
  ⟨(((header.drop 124).take 12).takeWhile (fun b => b ≠ 0 && b ≠ 32)).map Char.ofNat⟩

/-- Accumulated value of a run of octal digit characters. -/
def octalVal : List Char → Nat → Nat
  | [], acc => acc
  | c :: rest, acc => octalVal rest (acc * 8 + (c.toNat - 48))

/-- JavaScript `Number.parseInt(s, 8)`: leading whitespace and an optional
sign are consumed, then the longest run of octal digits; no digit at all
gives `NaN`, modelled as `none`. -/
def parseOctal (s : String) : Option Int :=
  let cs := s.data.dropWhile (fun c => isWsChar c)
  let sgn : Int := match cs with
    | c :: _ => if c = '-' then -1 else 1
    | [] => 1
  let cs2 := match cs with
    | c :: rest => if c = '-' || c = '+' then rest else cs
    | [] => []
  let ds := cs2.takeWhile (fun c => '0' ≤ c && c ≤ '7')
  if ds.isEmpty then none else some (sgn * (octalVal ds 0 : Int))

/-- Classification of one tar entry by its filename: JSON and `VERSION`
files and SVGs become text entries, PNGs and anything under `icons/` become
binary entries, everything else is dropped. -/
def tarEntry (filename : String) (contentBuf : List Nat) : Option CFile :=
  let fileName := lastSegment filename
  if strEnds ".json" filename || filename == "VERSION" then
    some { name := fileName, path := filename, content := .text ⟨contentBuf.map Char.ofNat⟩ }
  else if strEnds ".svg" filename then
    some { name := fileName, path := filename, content := .text ⟨contentBuf.map Char.ofNat⟩ }
  else if strEnds ".png" filename || containsSub filename "icons/" then
    some { name := fileName, path := filename, content := .binary contentBuf }
  else none

/-- The extracting loop of the tar reader.  Each iteration reads a 512-byte
header; an empty name ends the archive; a parsed positive size yields a
content block (padded to the 512 boundary), any other size — zero, negative,
or an unparsable octal field — advances another 512 bytes and continues.  The
fuel only bounds the recursion; every iteration consumes at least 512 bytes,
so `length + 1` iterations can never be exhausted. -/
def tarLoopAux : Nat → List Nat → List CFile
  | 0, _ => []
  | fuel + 1, bytes =>
      if bytes.isEmpty then []
      else
        let header := bytes.take 512
        let filename := parseNameBytes header
        if filename == "" then []
        else
          let rest := bytes.drop 512
          match parseOctal (parseSizeBytes header) with
          | some sz =>
              if sz > 0 then
                let contentBuf := rest.take sz.toNat
                let block := ((sz.toNat + 511) / 512) * 512
                (tarEntry filename contentBuf).toList ++ tarLoopAux fuel (rest.drop block)
              else tarLoopAux fuel (rest.drop 512)
          | none => tarLoopAux fuel (rest.drop 512)

/-- The entry list produced by `extractTarFile` before the component-merge
step.  The merge step that follows in the source only parses the extracted
JSON texts (each parse failure caught and logged) and, when at least one
component parsed, appends a unified `config.json`; it raises no error of its
own, so with no extracted files the reader returns this list unchanged. -/
def extractTarEntries (bytes : List Nat) : List CFile :=
  tarLoopAux (bytes.length + 1) bytes

/-! Model of the ZIP reader and component reconciler (`extractZipFile`).  The
binary ZIP decode itself is performed by the JSZip library; the model starts
from the decoded entry list (directory entries, which the loop skips, are
omitted).  JSON entries carry their parsed value; `text`/`binary` content in
a `.json` entry stands for a failing `JSON.parse`, whose exception the
per-file `catch` turns into skipping the entry. -/

/-- The conventional per-section component filenames. -/
def componentFileNames : List String :=
  ["metadata.json", "presets.json", "fields.json", "translations.json", "icons.json"]

/-- Accumulator of the ZIP extraction loop. -/
structure ZipAcc where
  files : List CFile
  components : List (String × JValue)
  hasComponentFiles : Bool
deriving Repr

/-- One iteration of the ZIP extraction loop.  Note that the
`hasComponentFiles` flag is raised before the component file is parsed, so a
malformed component still raises it. -/
def zipFileStep (hasConfigJson : Bool) (acc : ZipAcc) (e : CFile) : ZipAcc :=
  let fileName := lastSegment e.path
  if strEnds ".json" e.path then
    if !hasConfigJson && componentFileNames.contains fileName then
      let acc1 := { acc with hasComponentFiles := true }
      match e.content with
      | .json parsed =>
          { acc1 with
            files := acc1.files ++ [{ e with name := fileName }],
            components := setKey acc1.components (jsRemoveFirst fileName ".json") parsed }
      | _ => acc1
    else if !hasConfigJson || e.path ≠ "config.json" then
      match e.content with
      | .json _ => { acc with files := acc.files ++ [{ e with name := fileName }] }
      | _ => acc
    else acc
  else if strStarts "icons/" e.path then
    { acc with files := acc.files ++ [{ e with name := fileName }] }
  else
    { acc with files := acc.files ++ [{ e with name := fileName }] }

/-- Promotion of a `fields` member nested inside the presets component to a
standalone fields component, applied when no fields component was found. -/
def promoteNestedFields (comps : List (String × JValue)) : List (String × JValue) :=
  if truthyO (jlookup comps "presets") && !truthyO (jlookup comps "fields") then
    match (jlookup comps "presets").bind (fun p => jget p "fields") with
    | some pf =>
        if truthy pf then
          setKey comps "fields"
            (.obj ((jentries pf).map (fun kv => (kv.1, spreadWithId kv.1 kv.2))))
        else comps
    | none => comps
  else comps

/-- The preset record built by the reconciler from one entry of an object-map
presets component; an absent `name` stays `undefined` and is dropped by the
`JSON.stringify` that serializes the unified document. -/
def unifiedPresetEntry (presetId : String) (preset : JValue) : JValue :=
  mkObjD [("id", some (.str presetId)),
          ("name", jget preset "name"),
          ("tags", some (jor (jget preset "tags") (.obj []))),
          ("color", some (jor (jget preset "color") (.str "#000000"))),
          ("icon", some (jor (jget preset "icon") (.str "default"))),
          ("geometry", some (jor (jget preset "geometry") (.arr [.str "point"]))),
          ("fieldRefs", some (jor (jget preset "fields") (.arr [])))]

/-- The presets array of the unified document: a direct array passes through;
an object map (possibly wrapped in a `presets` key) is iterated with the
`fields` and `categories` keys excluded; a truthy primitive fails the
`typeof === 'object'` guard and leaves the array empty. -/
def unifiedPresets (comps : List (String × JValue)) : List JValue :=
  match jlookup comps "presets" with
  | some presetsC =>
      if truthy presetsC then
        match presetsC with
        | .arr xs => xs
        | .obj kvs =>
            let presetsMap := jor (jget (JValue.obj kvs) "presets") (JValue.obj kvs)
            (jentries presetsMap).filterMap (fun kv =>
              if kv.1 = "fields" || kv.1 = "categories" then none
              else some (unifiedPresetEntry kv.1 kv.2))
        | _ => []
      else []
  | none => []

/-- The field record built by the reconciler from one entry of an object-map
fields component. -/
def unifiedConfigFieldEntry (fieldId : String) (field : JValue) : JValue :=
  .obj [("id", .str fieldId),
        ("name", jor (jget field "label") (.str fieldId)),
        ("tagKey", jor (jget field "tagKey") (jor (jget field "key") (.str fieldId))),
        ("type", jor (jget field "type") (.str "text")),
        ("universal", jor (jget field "universal") (.bool false)),
        ("helperText", jor (jget field "helperText") (jor (jget field "placeholder") (.str ""))),
        ("options", jor (jget field "options") (.arr []))]

/-- The fields array of the unified document: a direct array passes through;
an object map is iterated; a truthy primitive fails the `typeof === 'object'`
guard and leaves the array empty. -/
def unifiedFields (comps : List (String × JValue)) : List JValue :=
  match jlookup comps "fields" with
  | some fieldsC =>
      if truthy fieldsC then
        match fieldsC with
        | .arr xs => xs
        | .obj kvs => (jentries (JValue.obj kvs)).map
            (fun kv => unifiedConfigFieldEntry kv.1 kv.2)
        | _ => []
      else []
  | none => []

/-- The unified `config.json` document reconstructed from component files.
The promotion only adds a `fields` component, which the `metadata`,
`translations` and `icons` reads do not touch, so reading everything from the
promoted bag matches the source's order of operations. -/
def buildUnifiedConfig (comps0 : List (String × JValue)) : JValue :=
  let comps := promoteNestedFields comps0
  .obj [("metadata", jor (jlookup comps "metadata") (.obj [])),
        ("presets", .arr (unifiedPresets comps)),
        ("fields", .arr (unifiedFields comps)),
        ("translations", jor (jlookup comps "translations") (.obj [])),
        ("icons", jor (jlookup comps "icons") (.obj []))]

/-- The file list returned by `extractZipFile`: an existing `config.json` is
pushed first; every entry is processed by the loop; when component files were
seen and no `config.json` exists, the reconstructed unified document is
appended. -/
def extractZipFiles (entries : List CFile) : List CFile :=
  let hasConfigJson := entries.any (fun e => e.path == "config.json")
  let initFiles : List CFile :=
    match entries.find? (fun e => e.path == "config.json") with
    | some e => [{ name := "config.json", path := "config.json", content := e.content }]
    | none => []
  let acc := entries.foldl (zipFileStep hasConfigJson)
    { files := initFiles, components := [], hasComponentFiles := false }
  if !hasConfigJson && acc.hasComponentFiles then
    acc.files ++
      [{ name := "config.json", path := "config.json",
         content := .json (jnorm (buildUnifiedConfig acc.components)) }]
  else acc.files

/-! Model of the archive writer (`createZipFile`).  The `zip.folder("icons")`
call creates a directory entry, which the extraction loop skips; it is
omitted.  A string-content PNG asset is base64-decoded back to the same
bytes; the asset contents are never inspected by the configuration logic, so
asset entries are carried with their content unchanged. -/

/-- Membership test `preset.geometry.includes(g)` (a non-array geometry would
throw in JavaScript; canonical presets carry arrays). -/
def geometryIncludes (p : JValue) (g : String) : Bool :=
  match jget p "geometry" with
  | some (.arr xs) => xs.any (fun x => jbeq x (.str g))
  | _ => false

/-- Ids of the presets with a truthy id whose geometry includes `g`, in
order. -/
def presetsWithGeometry (presets : JValue) (g : String) : List JValue :=
  match presets with
  | .arr xs =>
      (xs.filter (fun p => truthyO (jget p "id") && geometryIncludes p g)).map
        (fun p => (jget p "id").getD .null)
  | _ => []

/-- The per-field body written into the exported `presets.json`
(`result.fields[field.id] = ...`); `options` is included only when present
with positive length. -/
def exportFieldBody (field : JValue) : JValue :=
  let withOptions : Option JValue :=
    match jget field "options" with
    | some (.arr (x :: xs)) => some (.arr (x :: xs))
    | some (.str s) => if s.length > 0 then some (.str s) else none
    | _ => none
  mkObjD [("tagKey", jget field "tagKey"),
          ("type", jget field "type"),
          ("label", jget field "name"),
          ("helperText", some (jor (jget field "helperText") (.str ""))),
          ("universal", some (jor (jget field "universal") (.bool false))),
          ("options", withOptions)]

/-- One step of the exported fields-map construction:
`if (field.id) result.fields[field.id] = {...}`. -/
def exportFieldsStep (acc : List (String × JValue)) (field : JValue) :
    List (String × JValue) :=
  if truthyO (jget field "id") then
    setKey acc (jsToString ((jget field "id").getD .null)) (exportFieldBody field)
  else acc

/-- The `presets.json` document generated on export: categories, an id-keyed
fields map, and the per-geometry defaults lists.  No preset records are
written. -/
def generatePresetsJson (c : ConfigState) : JValue :=
  let areaP := presetsWithGeometry c.presets "area"
  let lineP := presetsWithGeometry c.presets "line"
  let pointP := presetsWithGeometry c.presets "point"
  let fieldsObj : List (String × JValue) :=
    match c.fields with
    | .arr xs => xs.foldl exportFieldsStep []
    | _ => []
  .obj [("categories", .obj []),
        ("fields", .obj fieldsObj),
        ("defaults", .obj [("area", .arr areaP), ("line", .arr lineP),
          ("point", .arr pointP), ("vertex", .arr []), ("relation", .arr [])])]

/-- The entry list of the archive produced by `createZipFile`; the four
JSON components pass through `JSON.stringify`, hence through `jnorm`. -/
def createZipEntries (c : ConfigState) (rawFiles : List CFile) : List CFile :=
  [{ name := "metadata.json", path := "metadata.json", content := .json (jnorm c.metadata) },
   { name := "presets.json", path := "presets.json",
     content := .json (jnorm (generatePresetsJson c)) },
   { name := "translations.json", path := "translations.json",
     content := .json (jnorm c.translations) },
   { name := "icons.json", path := "icons.json", content := .json (jnorm c.icons) },
   { name := "VERSION", path := "VERSION", content := .text "1" },
   { name := "style.css", path := "style.css",
     content := .text "/* CoMapeo configuration styles */" },
   { name := "icons.png", path := "icons.png", content := .binary [] },
   { name := "icons.svg", path := "icons.svg",
     content := .text "<svg xmlns=\"http://www.w3.org/2000/svg\" xmlns:xlink=\"http://www.w3.org/1999/xlink\"></svg>" }]
  ++ rawFiles.filter (fun f => strStarts "icons/" f.path)

/-- Import of an uploaded ZIP archive: extraction and reconciliation followed
by the store's `importConfig`. -/
def importPipelineZip (entries : List CFile) (isMapeo : Bool) (now : String) : ConfigState :=
  importConfigFn (extractZipFiles entries) isMapeo now

/-- The export-then-import round trip on the configuration document. -/
def roundTripConfig (c : ConfigState) (rawFiles : List CFile) (now : String) : ConfigState :=
  importPipelineZip (createZipEntries c rawFiles) false now

/-- The `translations.json` handling of the per-file branch: direct
assignment of the parsed document. -/
def normalizeTranslationsFile (v : JValue) : JValue := v

/-- The `icons.json` handling of the per-file branch: direct assignment of
the parsed document. -/
def normalizeIconsFile (v : JValue) : JValue := v

/-- Nested translation tree as described by the spec: the key split on `/`,
intermediate objects for every segment, the leaf value at the last segment.
Modelled from the spec's words for comparison against the code. -/
def specNestedTree : List String → JValue → JValue
  | [], v => v
  | p :: rest, v => .obj [(p, specNestedTree rest v)]

/-- A canonical field, spelled out (the canonical key order is the one the
editor and the import pipeline produce). -/
structure CanonField where
  id : String
  name : String
  tagKey : String
  ftype : String
  universal : Bool
  helperText : String
  options : List JValue

/-- The JSON record of a canonical field. -/
def canonFieldVal (f : CanonField) : JValue :=
  .obj [("id", .str f.id), ("name", .str f.name), ("tagKey", .str f.tagKey),
        ("type", .str f.ftype), ("universal", .bool f.universal),
        ("helperText", .str f.helperText), ("options", .arr f.options)]

/-- Well-formedness of a canonical field: non-empty id, name, tagKey and
type. -/
def canonFieldOk (f : CanonField) : Prop :=
  f.id ≠ "" ∧ f.name ≠ "" ∧ f.tagKey ≠ "" ∧ f.ftype ≠ ""

/-- The spurious preset the reconciler fabricates from the `defaults` key of
an exported `presets.json` (its `name` is `undefined` and is dropped when the
unified document is serialized). -/
def reconcilerDefaultsPreset : JValue :=
  .obj [("id", .str "defaults"), ("tags", .obj []), ("color", .str "#000000"),
        ("icon", .str "default"), ("geometry", .arr [.str "point"]),
        ("fieldRefs", .arr [])]

/-- A 512-byte tar header whose name field reads `a.json` and whose size
field holds the non-octal text `zz`, so `Number.parseInt(_, 8)` yields
`NaN`. -/
def malformedSizeHeader : List Nat :=
  [97, 46, 106, 115, 111, 110] ++ List.replicate 94 0 ++ List.replicate 24 0 ++
    [122, 122] ++ List.replicate 10 0 ++ List.replicate 376 0

/-- A 512-byte block of zeroes (the extra block the reader skips after a
header whose size failed to parse). -/
def padBlock : List Nat := List.replicate 512 0

/-- The C7 scenario document: a `presets.json` in object-map form, holding a
nested `fields` key next to a preset `building` that references the field
`name`. -/
def scenarioPresetsDoc : JValue :=
  .obj [("fields", .obj [("name", .obj [("key", .str "name"), ("type", .str "text"),
          ("label", .str "Name")])]),
        ("building", .obj [("icon", .str "building"), ("fields", .arr [.str "name"]),
          ("geometry", .arr [.str "point"]), ("tags", .obj [("type", .str "building")]),
          ("name", .str "Building")])]

/-- A concrete canonical configuration used to exhibit the round-trip
behaviour. -/
def demoCanonFields : List CanonField :=
  [{ id := "name", name := "Name", tagKey := "name", ftype := "text", universal := false,
     helperText := "", options := [] }]

/-- The concrete canonical configuration built over `demoCanonFields`, with
one preset `building`. -/
def demoConfig : ConfigState :=
  { metadata := .obj [("name", .str "demo"), ("version", .str "1.0.0"),
      ("fileVersion", .str "1"), ("buildDate", .str "2024-01-01T00:00:00.000Z")],
    fields := .arr (demoCanonFields.map canonFieldVal),
    presets := .arr [.obj [("id", .str "building"), ("name", .str "Building"),
      ("tags", .obj []), ("color", .str "#ff0000"), ("icon", .str "building"),
      ("fieldRefs", .arr [.str "name"]), ("geometry", .arr [.str "point"])]],
    translations := .obj [("es", .obj [("fields", .obj [])])],
    icons := .obj [("building", .obj [("src", .str "icons/building.svg")])] }

/-- The non-empty asset list accompanying `demoConfig`. -/
def demoAssets : List CFile :=
  [{ name := "building.svg", path := "icons/building.svg", content := .text "<svg></svg>" }]

/-! Theorems for the claims. -/

mutual

theorem jbeq_refl : ∀ a, jbeq a a = true
  | .null => rfl
  | .bool b => by simp [jbeq]
  | .num n => by simp [jbeq]
  | .str s => by simp [jbeq]
  | .arr xs => by simp [jbeq, jbeqList_refl xs]
  | .obj kvs => by simp [jbeq, jbeqKvs_refl kvs]

theorem jbeqList_refl : ∀ l, jbeqList l l = true
  | [] => rfl
  | a :: as => by simp [jbeqList, jbeq_refl a, jbeqList_refl as]

theorem jbeqKvs_refl : ∀ l, jbeqKvs l l = true
  | [] => rfl
  | (k, v) :: as => by simp [jbeqKvs, jbeq_refl v, jbeqKvs_refl as]

end

/-- A failing structural equality test separates JSON values. -/
theorem jbeq_ne {a b : JValue} (h : jbeq a b = false) : a ≠ b := by
  intro e
  subst e
  rw [jbeq_refl] at h
  cases h

theorem jsOrderKvs_singleton (kv : String × JValue) : jsOrderKvs [kv] = [kv] := by
  cases h : isIdxKey kv.1 <;>
    simp [jsOrderKvs, List.filter, h, sortIdxKvs, insertIdxKv]

theorem jsOrderKvs_eq_self {kvs : List (String × JValue)}
    (h : ∀ kv ∈ kvs, isIdxKey kv.1 = false) : jsOrderKvs kvs = kvs := by
  have h1 : kvs.filter (fun kv => isIdxKey kv.1) = [] := by
    rw [List.filter_eq_nil_iff]
    intro kv hkv
    simp [h kv hkv]
  have h2 : kvs.filter (fun kv => !isIdxKey kv.1) = kvs := by
    rw [List.filter_eq_self]
    intro kv hkv
    simp [h kv hkv]
  simp [jsOrderKvs, h1, h2, sortIdxKvs]

theorem idxFreeKvs_keys :
    ∀ kvs : List (String × JValue), idxFreeKvs kvs = true →
      ∀ kv ∈ kvs, isIdxKey kv.1 = false
  | [], _, kv, hkv => by cases hkv
  | (k, v) :: rest, h, kv, hkv => by
      simp only [idxFreeKvs, Bool.and_eq_true, Bool.not_eq_true'] at h
      rcases List.mem_cons.mp hkv with rfl | hm
      · exact h.1.1
      · exact idxFreeKvs_keys rest h.2 kv hm

mutual

theorem jnorm_of_idxFree : ∀ v, idxFree v = true → jnorm v = v
  | .null, _ => rfl
  | .bool _, _ => rfl
  | .num _, _ => rfl
  | .str _, _ => rfl
  | .arr xs, h => by
      simp only [idxFree] at h
      simp only [jnorm, jnormList_of_idxFree xs h]
  | .obj kvs, h => by
      simp only [idxFree] at h
      simp only [jnorm, jnormKvs_of_idxFree kvs h]
      rw [jsOrderKvs_eq_self (idxFreeKvs_keys kvs h)]

theorem jnormList_of_idxFree : ∀ xs, idxFreeList xs = true → jnormList xs = xs
  | [], _ => rfl
  | x :: xs, h => by
      simp only [idxFreeList, Bool.and_eq_true] at h
      simp only [jnormList, jnorm_of_idxFree x h.1, jnormList_of_idxFree xs h.2]

theorem jnormKvs_of_idxFree : ∀ kvs, idxFreeKvs kvs = true → jnormKvs kvs = kvs
  | [], _ => rfl
  | (k, v) :: kvs, h => by
      simp only [idxFreeKvs, Bool.and_eq_true] at h
      simp only [jnormKvs, jnorm_of_idxFree v h.1.2, jnormKvs_of_idxFree kvs h.2]

end

theorem idxFreeList_of_forall :
    ∀ xs : List JValue, (∀ x ∈ xs, idxFree x = true) → idxFreeList xs = true
  | [], _ => rfl
  | x :: xs, h => by
      simp only [idxFreeList, Bool.and_eq_true]
      exact ⟨h x (List.mem_cons_self x xs),
        idxFreeList_of_forall xs (fun y hy => h y (List.mem_cons_of_mem x hy))⟩

theorem idxFreeList_mem :
    ∀ xs : List JValue, idxFreeList xs = true → ∀ x ∈ xs, idxFree x = true
  | [], _, x, hx => by cases hx
  | y :: xs, h, x, hx => by
      simp only [idxFreeList, Bool.and_eq_true] at h
      rcases List.mem_cons.mp hx with rfl | hm
      · exact h.1
      · exact idxFreeList_mem xs h.2 x hm

theorem idxFree_of_lookup :
    ∀ kvs : List (String × JValue), idxFreeKvs kvs = true →
      ∀ {k : String} {w : JValue}, jlookup kvs k = some w → idxFree w = true
  | [], _, _, _, hl => by cases hl
  | (k0, v0) :: rest, h, k, w, hl => by
      simp only [idxFreeKvs, Bool.and_eq_true] at h
      simp only [jlookup] at hl
      by_cases hk : k0 = k
      · simp only [hk, if_pos rfl] at hl
        cases hl
        exact h.1.2
      · simp only [if_neg hk] at hl
        exact idxFree_of_lookup rest h.2 hl

theorem idxFreeKvs_of_forall :
    ∀ kvs : List (String × JValue),
      (∀ kv ∈ kvs, isIdxKey kv.1 = false ∧ idxFree kv.2 = true) → idxFreeKvs kvs = true
  | [], _ => rfl
  | (k, v) :: kvs, h => by
      have h0 := h (k, v) (List.mem_cons_self _ _)
      simp only [idxFreeKvs, Bool.and_eq_true, Bool.not_eq_true']
      exact ⟨⟨h0.1, h0.2⟩,
        idxFreeKvs_of_forall kvs (fun kv hkv => h kv (List.mem_cons_of_mem _ hkv))⟩

theorem idxFree_jget :
    ∀ (p : JValue) {k : String} {w : JValue},
      idxFree p = true → jget p k = some w → idxFree w = true
  | .obj kvs, _, _, hp, hj => idxFree_of_lookup kvs (by simpa [idxFree] using hp) hj
  | .null, _, _, _, hj => by simp [jget] at hj
  | .bool _, _, _, _, hj => by simp [jget] at hj
  | .num _, _, _, _, hj => by simp [jget] at hj
  | .str _, _, _, _, hj => by simp [jget] at hj
  | .arr _, _, _, _, hj => by simp [jget] at hj

theorem idxFree_presetsWithGeometry (v : JValue) (g : String)
    (hv : idxFree v = true) : idxFreeList (presetsWithGeometry v g) = true := by
  cases v with
  | arr xs =>
      apply idxFreeList_of_forall
      intro x hx
      simp only [presetsWithGeometry] at hx
      obtain ⟨p, hp, rfl⟩ := List.mem_map.mp hx
      have hpx : p ∈ xs := List.mem_of_mem_filter hp
      have hpf : idxFree p = true :=
        idxFreeList_mem xs (by simpa [idxFree] using hv) p hpx
      cases hj : jget p "id" with
      | none => simp [Option.getD, idxFree]
      | some w => simpa [Option.getD] using idxFree_jget p hpf hj
  | null => rfl
  | bool b => rfl
  | num n => rfl
  | str s => rfl
  | obj kvs => rfl

/-- Claim C5 counterexample: the claim as stated fails on the legacy field
`{id: "f", name: "N", type: ""}` — the conversion outputs `name = "N"` where
the claim predicts the fallback to the id `"f"` (the code falls back to the
legacy `name` before the id), and `type = "text"` where the claim predicts
the string `""` passed through unchanged (the `field.type || "text"` default
also fires on the empty string). -/
theorem convertField_c5_counter :
    convertField (.obj [("id", .str "f"), ("name", .str "N"), ("type", .str "")]) =
      .obj [("id", .str "f"), ("name", .str "N"), ("tagKey", .str "f"), ("type", .str "text"),
        ("universal", .bool false), ("helperText", .str "")] ∧
    ("N" : String) ≠ "f" ∧ ("text" : String) ≠ "" :=
  ⟨rfl, by decide, by decide⟩

/-- Claim C5, amended: conversion maps legacy `key` to `tagKey`, legacy
`label` to `name` — falling back to the legacy `name` and only then to the
field id — legacy `placeholder` to `helperText`, rewrites `select_one` to
`selectOne` and `select_many` to `selectMany`, passes other non-empty type
strings through, and defaults the type to `"text"` when it is absent, not a
string, or empty (any falsy value). -/
theorem convertField_amended :
    (∀ i k l p t, t ≠ "" → t ≠ "select_one" → t ≠ "select_many" →
      convertField (.obj [("id", .str i), ("key", .str k), ("label", .str l),
          ("placeholder", .str p), ("type", .str t)]) =
        .obj [("id", .str i), ("name", .str l), ("tagKey", .str k), ("type", .str t),
          ("universal", .bool false), ("helperText", .str p)]) ∧
    (∀ i k l p, convertField (.obj [("id", .str i), ("key", .str k), ("label", .str l),
          ("placeholder", .str p), ("type", .str "select_one")]) =
        .obj [("id", .str i), ("name", .str l), ("tagKey", .str k), ("type", .str "selectOne"),
          ("universal", .bool false), ("helperText", .str p)]) ∧
    (∀ i k l p, convertField (.obj [("id", .str i), ("key", .str k), ("label", .str l),
          ("placeholder", .str p), ("type", .str "select_many")]) =
        .obj [("id", .str i), ("name", .str l), ("tagKey", .str k), ("type", .str "selectMany"),
          ("universal", .bool false), ("helperText", .str p)]) ∧
    (∀ i k, convertField (.obj [("id", .str i), ("key", .str k)]) =
        .obj [("id", .str i), ("name", .str i), ("tagKey", .str k), ("type", .str "text"),
          ("universal", .bool false), ("helperText", .str "")]) ∧
    (∀ i n, convertField (.obj [("id", .str i), ("name", .str n)]) =
        .obj [("id", .str i), ("name", .str n), ("tagKey", .str i), ("type", .str "text"),
          ("universal", .bool false), ("helperText", .str "")]) ∧
    (∀ i, convertField (.obj [("id", .str i), ("type", .num 5)]) =
        .obj [("id", .str i), ("name", .str i), ("tagKey", .str i), ("type", .str "text"),
          ("universal", .bool false), ("helperText", .str "")]) := by
  refine ⟨?_, ?_, ?_, ?_, ?_, ?_⟩
  · intro i k l p t ht h1 h2
    simp only [convertField, convertFieldType, jget, jlookup, jor, truthy, isObjLike, truthyO]
    simp [ht, h1, h2]
  · intro i k l p
    rfl
  · intro i k l p
    rfl
  · intro i k
    rfl
  · intro i n
    rfl
  · intro i
    rfl

/-- Witness for the amended C5 at concrete fields. -/
theorem convertField_amended_witness :
    convertField (.obj [("id", .str "f"), ("key", .str "k"), ("label", .str "L"),
        ("placeholder", .str "P"), ("type", .str "number")]) =
      .obj [("id", .str "f"), ("name", .str "L"), ("tagKey", .str "k"), ("type", .str "number"),
        ("universal", .bool false), ("helperText", .str "P")] ∧
    convertField (.obj [("id", .str "f"), ("key", .str "k"), ("label", .str "L"),
        ("placeholder", .str "P"), ("type", .str "select_one")]) =
      .obj [("id", .str "f"), ("name", .str "L"), ("tagKey", .str "k"),
        ("type", .str "selectOne"), ("universal", .bool false), ("helperText", .str "P")] ∧
    convertField (.obj [("id", .str "f"), ("key", .str "k")]) =
      .obj [("id", .str "f"), ("name", .str "f"), ("tagKey", .str "k"), ("type", .str "text"),
        ("universal", .bool false), ("helperText", .str "")] :=
  ⟨convertField_amended.1 "f" "k" "L" "P" "number" (by decide) (by decide) (by decide),
    convertField_amended.2.1 "f" "k" "L" "P",
    convertField_amended.2.2.2.1 "f" "k"⟩

theorem convertPresetsList_color (xs : List JValue) (l : List JValue)
    (h : convertPresetsList xs = .ok l) :
    ∀ p ∈ l, ∃ i, jget p "id" = some (.str i) ∧ jget p "color" = some (.str (deriveColor i)) := by
  induction xs generalizing l with
  | nil =>
      simp [convertPresetsList] at h
      subst h
      simp
  | cons p rest ih =>
      simp only [convertPresetsList] at h
      cases hi : getStringId p with
      | error e => rw [hi] at h; cases h
      | ok i =>
          rw [hi] at h
          cases hr : convertPresetsList rest with
          | error e => rw [hr] at h; cases h
          | ok r =>
              rw [hr] at h
              simp only [Except.ok.injEq] at h
              subst h
              intro q hq
              rcases List.mem_cons.mp hq with hq | hq
              · subst hq
                exact ⟨i, by simp [convertPresetBody, jget, jlookup], by
                  simp [convertPresetBody, jget, jlookup]⟩
              · exact ih r hr q hq

theorem hexRep_length_le (fuel : Nat) : ∀ n k, n < 16 ^ k → 1 ≤ k → k ≤ fuel →
    (hexRep fuel n).length ≤ k := by
  induction fuel with
  | zero => intro n k _ h1 h0; omega
  | succ f ih =>
      intro n k hn h1 hf
      by_cases h16 : n < 16
      · simp only [hexRep, if_pos h16, List.length_cons, List.length_nil]
        omega
      · have hk2 : 2 ≤ k := by
          by_contra hc
          have : k = 1 := by omega
          subst this
          simp at hn
          omega
        have hq : n / 16 < 16 ^ (k - 1) := by
          have : n < 16 * 16 ^ (k - 1) := by
            have : 16 ^ k = 16 * 16 ^ (k - 1) := by
              conv_lhs => rw [show k = 1 + (k - 1) by omega]
              rw [pow_add, pow_one]
            omega
          omega
        have := ih (n / 16) (k - 1) hq (by omega) (by omega)
        simp only [hexRep, if_neg h16, List.length_append, List.length_cons, List.length_nil]
        omega

theorem padStart6_length (s : String) (h : s.length ≤ 6) : (padStart6 s).length = 6 := by
  have : s.length = s.data.length := rfl
  simp only [padStart6, String.length]
  simp only [List.length_append, List.length_replicate]
  omega

theorem hexRep_ne_nil (fuel n : Nat) (h : 1 ≤ fuel) : hexRep fuel n ≠ [] := by
  cases fuel with
  | zero => omega
  | succ f =>
      by_cases h16 : n < 16
      · simp [hexRep, h16]
      · simp only [hexRep, if_neg h16]
        intro hc
        rcases List.append_eq_nil.mp hc with ⟨_, h2⟩
        cases h2

/-- Length of the derived color string: one `#` plus exactly six hex
digits. -/
theorem deriveColor_length (i : String) : (deriveColor i).length = 7 := by
  have h1 : (0 : Int) ≤ hashId i % 2 ^ 24 := Int.emod_nonneg _ (by norm_num)
  have h2 : hashId i % 2 ^ 24 < 2 ^ 24 := Int.emod_lt_of_pos _ (by norm_num)
  have hb : (maskedHash i).toNat < 16 ^ 6 := by
    have h3 : maskedHash i < (16 ^ 6 : Int) := by
      have : ((2 : Int) ^ 24) = 16 ^ 6 := by norm_num
      simpa [maskedHash, this] using h2
    omega
  have hlen : (jsHexString (maskedHash i).toNat).length ≤ 6 := by
    have := hexRep_length_le 32 (maskedHash i).toNat 6 hb (by norm_num) (by norm_num)
    simpa [jsHexString, String.length] using this
  simp only [deriveColor, String.length_append, padStart6_length _ hlen]
  rfl

/-- Claim C3: every preset produced by the legacy conversion carries a color
equal to `deriveColor` of its id — the string hash folded left-to-right with
`acc = charCode(c) + ((acc << 5) - acc)` from 0, masked with `0x00ffffff` and
formatted as `#` plus six zero-padded lowercase hex digits (the definition of
`deriveColor`).  The color is never read from the legacy document, and since
`deriveColor` is a pure function the same id always yields the same
`#RRGGBB` string; the color string always has length 7. -/
theorem convertPresets_color_derived (v : JValue) (l : List JValue)
    (h : convertPresets (some v) = .ok (.arr l)) :
    (∀ p ∈ l, ∃ i, jget p "id" = some (.str i) ∧
      jget p "color" = some (.str (deriveColor i))) ∧
    ∀ i : String, (deriveColor i).length = 7 := by
  refine ⟨?_, deriveColor_length⟩
  simp only [convertPresets] at h
  by_cases ht : truthy v
  · rw [if_pos ht] at h
    cases hl : convertPresetsList (arrayify v) with
    | error e => rw [hl] at h; cases h
    | ok r =>
        rw [hl] at h
        simp only [Except.ok.injEq, JValue.arr.injEq] at h
        subst h
        exact convertPresetsList_color _ _ hl
  · rw [if_neg ht] at h
    simp only [Except.ok.injEq, JValue.arr.injEq] at h
    subst h
    simp

/-- Witness for C3 at a concrete legacy document. -/
theorem convertPresets_color_derived_witness :
    convertPresets (some (.arr [.obj [("id", .str "building")], .obj [("id", .str "school")]]))
      = .ok (.arr [convertPresetBody "building" (.obj [("id", .str "building")]),
          convertPresetBody "school" (.obj [("id", .str "school")])]) ∧
    (∀ p ∈ [convertPresetBody "building" (.obj [("id", .str "building")]),
        convertPresetBody "school" (.obj [("id", .str "school")])],
      ∃ i, jget p "id" = some (.str i) ∧ jget p "color" = some (.str (deriveColor i))) ∧
    deriveColor "building" = "#ba12b4" ∧ deriveColor "school" = "#e15b74" :=
  ⟨rfl,
    (convertPresets_color_derived
      (.arr [.obj [("id", .str "building")], .obj [("id", .str "school")]])
      [convertPresetBody "building" (.obj [("id", .str "building")]),
        convertPresetBody "school" (.obj [("id", .str "school")])] (by rfl)).1,
    rfl, rfl⟩

/-- Claim C2 counterexample: the cited legacy fields conversion is not
idempotent.  Converting `[{id: "f", key: "k", placeholder: "h"}]` once yields
a field with `tagKey = "k"` and `helperText = "h"`; applying the conversion
again resets `tagKey` to the id (the output has no `key` property) and clears
`helperText` (no `placeholder` property), so the two results differ. -/
theorem convertFields_c2_counter :
    convertFields (some (.arr [.obj [("id", .str "f"), ("key", .str "k"),
        ("placeholder", .str "h")]])) =
      .arr [.obj [("id", .str "f"), ("name", .str "f"), ("tagKey", .str "k"),
        ("type", .str "text"), ("universal", .bool false), ("helperText", .str "h")]] ∧
    convertFields (some (.arr [.obj [("id", .str "f"), ("name", .str "f"),
        ("tagKey", .str "k"), ("type", .str "text"), ("universal", .bool false),
        ("helperText", .str "h")]])) =
      .arr [.obj [("id", .str "f"), ("name", .str "f"), ("tagKey", .str "f"),
        ("type", .str "text"), ("universal", .bool false), ("helperText", .str "")]] ∧
    JValue.arr [.obj [("id", .str "f"), ("name", .str "f"), ("tagKey", .str "k"),
        ("type", .str "text"), ("universal", .bool false), ("helperText", .str "h")]] ≠
      .arr [.obj [("id", .str "f"), ("name", .str "f"), ("tagKey", .str "f"),
        ("type", .str "text"), ("universal", .bool false), ("helperText", .str "")]] :=
  ⟨rfl, rfl, jbeq_ne (by rfl)⟩

/-- Claim C2, amended: the shape normalizers of `importConfig` are idempotent
for every section kind — re-normalizing a normalized `fields.json` or
`presets.json` document returns it unchanged (they always produce arrays, on
which they are the identity), and the `translations.json`/`icons.json`
handling is the identity outright.  The legacy `convertFields` conversion
cited alongside them is not idempotent (see the counterexample). -/
theorem importNormalizers_idempotent :
    (∀ x y, normalizeFieldsFile x = .ok y → normalizeFieldsFile y = .ok y) ∧
    (∀ x y, normalizePresetsFile x = .ok y → normalizePresetsFile y = .ok y) ∧
    (∀ x, normalizeTranslationsFile (normalizeTranslationsFile x) =
      normalizeTranslationsFile x) ∧
    (∀ x, normalizeIconsFile (normalizeIconsFile x) = normalizeIconsFile x) := by
  refine ⟨?_, ?_, fun x => rfl, fun x => rfl⟩
  · intro x y h
    cases x with
    | null => simp [normalizeFieldsFile] at h
    | arr xs => simp only [normalizeFieldsFile, Except.ok.injEq] at h; subst h; rfl
    | bool b => simp only [normalizeFieldsFile, Except.ok.injEq] at h; subst h; rfl
    | num n => simp only [normalizeFieldsFile, Except.ok.injEq] at h; subst h; rfl
    | str s => simp only [normalizeFieldsFile, Except.ok.injEq] at h; subst h; rfl
    | obj kvs => simp only [normalizeFieldsFile, Except.ok.injEq] at h; subst h; rfl
  · intro x y h
    cases x with
    | null => simp [normalizePresetsFile] at h
    | arr xs => simp only [normalizePresetsFile, Except.ok.injEq] at h; subst h; rfl
    | bool b => simp only [normalizePresetsFile, Except.ok.injEq] at h; subst h; rfl
    | num n => simp only [normalizePresetsFile, Except.ok.injEq] at h; subst h; rfl
    | str s => simp only [normalizePresetsFile, Except.ok.injEq] at h; subst h; rfl
    | obj kvs => simp only [normalizePresetsFile, Except.ok.injEq] at h; subst h; rfl

/-- Witness for the amended C2 at concrete documents. -/
theorem importNormalizers_idempotent_witness :
    normalizeFieldsFile (.arr [normalizeFieldEntry "f" (.obj [("label", .str "F")])]) =
      .ok (.arr [normalizeFieldEntry "f" (.obj [("label", .str "F")])]) ∧
    normalizePresetsFile (.arr [normalizePresetEntry "p" (.obj [])]) =
      .ok (.arr [normalizePresetEntry "p" (.obj [])]) :=
  ⟨importNormalizers_idempotent.1 (.obj [("f", .obj [("label", .str "F")])])
      (.arr [normalizeFieldEntry "f" (.obj [("label", .str "F")])]) (by rfl),
    importNormalizers_idempotent.2.1 (.obj [("p", .obj [])])
      (.arr [normalizePresetEntry "p" (.obj [])]) (by rfl)⟩

theorem splitOnChar_length (sep : Char) : ∀ cs : List Char,
    (splitOnChar sep cs).length = cs.count sep + 1 := by
  intro cs
  induction cs with
  | nil => rfl
  | cons c rest ih =>
      cases h : splitOnChar sep rest with
      | nil => rw [h] at ih; simp at ih
      | cons g gs =>
          rw [h] at ih
          simp only [List.length_cons] at ih
          by_cases hc : c = sep
          · subst hc
            simp only [splitOnChar, h, if_true, List.length_cons, List.count_cons_self]
            omega
          · simp only [splitOnChar, h]
            rw [if_neg hc]
            simp only [List.length_cons, List.count_cons_of_ne (Ne.symm hc)]
            omega

theorem jsSplit_two_le (s : String) (c : Char) (h : jsIncludesChar s c = true) :
    2 ≤ (jsSplit s c).length := by
  have hmem : c ∈ s.data := by
    have := h
    simp only [jsIncludesChar, List.contains_eq_any_beq, List.any_eq_true] at this
    obtain ⟨x, hx, hbeq⟩ := this
    rwa [show c = x from eq_of_beq hbeq]
  have hcount : 0 < s.data.count c := List.count_pos_iff.mpr hmem
  have := splitOnChar_length c s.data
  simp only [jsSplit, List.length_map]
  omega

theorem insertPath_empty_acc (v : JValue) : ∀ rest (q : String),
    insertPath [] (q :: rest) v = .ok [(q, specNestedTree rest v)] := by
  intro rest
  induction rest with
  | nil => intro q; rfl
  | cons r rs ih =>
      intro q
      simp only [insertPath, jlookup, ih r, specNestedTree, setKey]

/-- Claim C9: a flat slash-delimited translation key is split on `/` and
written along its path into freshly created nested objects, the last segment
holding the leaf value; in particular `"fields/building-type/label"` with
value `"Tipo de Edificio"` normalizes to
`{fields: {building-type: {label: "Tipo de Edificio"}}}`, and two keys
sharing a prefix merge into a common intermediate object. -/
theorem convertTranslations_slash_paths :
    (∀ lang k v, ¬(k = "fields" ∧ truthy v = true) → ¬(k = "presets" ∧ truthy v = true) →
      jsIncludesChar (stripQA k) '/' = true →
      convertTranslations (some (.obj [(lang, .obj [(k, v)])])) =
        .ok (.obj [(lang, specNestedTree (jsSplit (stripQA k) '/') v)])) ∧
    convertTranslations (some (.obj [("es", .obj [("fields/building-type/label",
        .str "Tipo de Edificio")])])) =
      .ok (.obj [("es", .obj [("fields", .obj [("building-type",
        .obj [("label", .str "Tipo de Edificio")])])])]) ∧
    convertTranslations (some (.obj [("pt", .obj [("a/b", .str "X"), ("a/c", .str "Y")])])) =
      .ok (.obj [("pt", .obj [("a", .obj [("b", .str "X"), ("c", .str "Y")])])]) := by
  refine ⟨?_, rfl, rfl⟩
  intro lang k v h1 h2 hs
  have hf : truthyO (jget (JValue.obj [(k, v)]) "fields") = false := by
    by_cases hk : k = "fields"
    · subst hk
      have hv : truthy v = false := by
        by_cases h : truthy v = true
        · exact absurd ⟨rfl, h⟩ h1
        · simpa using h
      simp [jget, jlookup, truthyO, hv]
    · simp [jget, jlookup, hk, truthyO]
  have hp : truthyO (jget (JValue.obj [(k, v)]) "presets") = false := by
    by_cases hk : k = "presets"
    · subst hk
      have hv : truthy v = false := by
        by_cases h : truthy v = true
        · exact absurd ⟨rfl, h⟩ h2
        · simpa using h
      simp [jget, jlookup, truthyO, hv]
    · simp [jget, jlookup, hk, truthyO]
  obtain ⟨q, r, rest, hsplit⟩ : ∃ q r rest, jsSplit (stripQA k) '/' = q :: r :: rest := by
    have hlen := jsSplit_two_le (stripQA k) '/' hs
    rcases hq : jsSplit (stripQA k) '/' with _ | ⟨a, _ | ⟨b, t2⟩⟩
    · rw [hq] at hlen; simp at hlen
    · rw [hq] at hlen; simp at hlen
    · exact ⟨a, b, t2, rfl⟩
  simp [convertTranslations, jentries, jsOrderKvs_singleton, convertLangList,
    convertLangEntry, truthy, isObjLike, hf, hp, flatFold, flatEntryStep, hs, hsplit,
    insertPath_empty_acc, specNestedTree]

/-- Witness for C9 at the claim's concrete key. -/
theorem convertTranslations_slash_paths_witness :
    convertTranslations (some (.obj [("qu", .obj [("fields/building-type/label",
        .str "Tipo de Edificio")])])) =
      .ok (.obj [("qu", specNestedTree
        (jsSplit (stripQA "fields/building-type/label") '/') (.str "Tipo de Edificio"))]) :=
  convertTranslations_slash_paths.1 "qu" "fields/building-type/label"
    (.str "Tipo de Edificio") (by decide) (by decide) (by rfl)

/-- Claim C10: with no configuration loaded (`config = null`) every editing
action of the store — `updateMetadata`, `addPreset`, `updatePreset`,
`deletePreset`, `addField`, `updateField`, `deleteField`, `addLanguage`,
`updateTranslation`, `addIcon`, `updateIconsJson` — returns the state
unchanged: no configuration is created and `rawFiles` is untouched. -/
theorem storeOps_noop_without_config (st : StoreState) (h : st.config = none) :
    (∀ u, updateMetadata st u = st) ∧ (∀ p, addPreset st p = st) ∧
    (∀ i u, updatePreset st i u = st) ∧ (∀ i, deletePreset st i = st) ∧
    (∀ f, addField st f = st) ∧ (∀ i u, updateField st i u = st) ∧
    (∀ i, deleteField st i = st) ∧ (∀ l, addLanguage st l = st) ∧
    (∀ l k v kp, updateTranslation st l k v kp = .ok st) ∧
    (∀ n c t, addIcon st n c t = st) ∧ (∀ j, updateIconsJson st j = st) := by
  refine ⟨?_, ?_, ?_, ?_, ?_, ?_, ?_, ?_, ?_, ?_, ?_⟩ <;> intros <;>
    simp [updateMetadata, addPreset, updatePreset, deletePreset, addField, updateField,
      deleteField, addLanguage, updateTranslation, addIcon, updateIconsJson, h]

/-- Witness for C10 at a concrete empty store state. -/
theorem storeOps_noop_without_config_witness :
    updateMetadata ⟨none, false, [], "metadata"⟩ (.obj [("name", .str "x")]) =
      ⟨none, false, [], "metadata"⟩ ∧
    addPreset ⟨none, false, [], "metadata"⟩ (.obj [("id", .str "p")]) =
      ⟨none, false, [], "metadata"⟩ ∧
    updatePreset ⟨none, false, [], "metadata"⟩ "p" (.obj []) =
      ⟨none, false, [], "metadata"⟩ ∧
    deletePreset ⟨none, false, [], "metadata"⟩ "p" = ⟨none, false, [], "metadata"⟩ ∧
    addField ⟨none, false, [], "metadata"⟩ (.obj [("id", .str "f")]) =
      ⟨none, false, [], "metadata"⟩ ∧
    updateField ⟨none, false, [], "metadata"⟩ "f" (.obj []) =
      ⟨none, false, [], "metadata"⟩ ∧
    deleteField ⟨none, false, [], "metadata"⟩ "f" = ⟨none, false, [], "metadata"⟩ ∧
    addLanguage ⟨none, false, [], "metadata"⟩ "es" = ⟨none, false, [], "metadata"⟩ ∧
    updateTranslation ⟨none, false, [], "metadata"⟩ "es" "k" "v"
      (some ["fields", "k", "label"]) = .ok ⟨none, false, [], "metadata"⟩ ∧
    addIcon ⟨none, false, [], "metadata"⟩ "tree" "<svg></svg>" "svg" =
      ⟨none, false, [], "metadata"⟩ ∧
    updateIconsJson ⟨none, false, [], "metadata"⟩ (.obj []) =
      ⟨none, false, [], "metadata"⟩ := by
  have T := storeOps_noop_without_config ⟨none, false, [], "metadata"⟩ rfl
  exact ⟨T.1 _, T.2.1 _, T.2.2.1 _ _, T.2.2.2.1 _, T.2.2.2.2.1 _, T.2.2.2.2.2.1 _ _,
    T.2.2.2.2.2.2.1 _, T.2.2.2.2.2.2.2.1 _, T.2.2.2.2.2.2.2.2.1 _ _ _ _,
    T.2.2.2.2.2.2.2.2.2.1 _ _ _, T.2.2.2.2.2.2.2.2.2.2 _⟩

/-- Claim C4: whenever the legacy-schema conversion throws on the assembled
document, `importConfig` with `isMapeo = true` does not propagate the
exception — it substitutes the minimal empty configuration (empty presets,
fields, translations, icons) whose metadata carries the explanatory
description `Converted from Mapeo configuration with errors`. -/
theorem importConfig_mapeo_fallback (files : List CFile) (now : String)
    (h : convertMapeoToCoMapeo (configToJValue (assembleImport files true now)) now =
      .error ()) :
    importConfigFn files true now = fallbackMapeoConfig now := by
  by_cases hn : truthy (JValue.str now) = true
  · simp [importConfigFn, h, fallbackMapeoConfig, jget, jlookup, truthyO, hn]
  · simp [importConfigFn, h, fallbackMapeoConfig, jget, jlookup, truthyO, hn, setProp,
      setKey]

/-- Witness for C4: a presets array holding a record without an id makes the
conversion throw, and the import produces the fallback configuration. -/
theorem importConfig_mapeo_fallback_witness :
    convertMapeoToCoMapeo (configToJValue (assembleImport
        [{ name := "presets.json", path := "presets.json",
           content := .json (.arr [.obj []]) }] true "2024-01-01T00:00:00.000Z"))
      "2024-01-01T00:00:00.000Z" = .error () ∧
    importConfigFn
        [{ name := "presets.json", path := "presets.json",
           content := .json (.arr [.obj []]) }] true "2024-01-01T00:00:00.000Z" =
      fallbackMapeoConfig "2024-01-01T00:00:00.000Z" :=
  ⟨rfl, importConfig_mapeo_fallback _ _ rfl⟩

/-- Claim C7: importing an archive that contains only an object-map
`presets.json` with a nested `fields` key and a preset `building` whose
`fields` is `["name"]` succeeds: the nested fields are promoted to a
standalone fields component, the sibling `fields` key is excluded from the
preset iteration, and the resulting configuration has exactly the promoted
field, the `building` preset with `fieldRefs = ["name"]`, empty translations
and icons, and metadata holding only the defaulted `buildDate`. -/
theorem importScenario_presetsOnly (now : String) :
    importPipelineZip
        [{ name := "presets.json", path := "presets.json",
           content := .json scenarioPresetsDoc }] false now =
      { metadata := .obj [("buildDate", .str now)],
        fields := .arr [.obj [("id", .str "name"), ("name", .str "Name"),
          ("tagKey", .str "name"), ("type", .str "text"), ("universal", .bool false),
          ("helperText", .str ""), ("options", .arr [])]],
        presets := .arr [.obj [("id", .str "building"), ("name", .str "Building"),
          ("tags", .obj [("type", .str "building")]), ("color", .str "#000000"),
          ("icon", .str "building"), ("geometry", .arr [.str "point"]),
          ("fieldRefs", .arr [.str "name"])]],
        translations := .obj [], icons := .obj [] } := by
  rfl

/-- Claim C6 counterexample: a tar archive whose single entry `a.json` has
the non-octal size field `zz` makes the reader return normally with an empty
file list — the malformed entry is skipped silently; no archive-format error
exists anywhere in the reader (the model is a total function). -/
theorem extractTar_malformed_size_counter :
    extractTarEntries (malformedSizeHeader ++ padBlock) = [] := by rfl

/-- Claim C6, amended: an entry whose 512-byte-header size field fails octal
parsing is skipped silently — the reader advances past the header and one
further 512-byte block (swallowing it) and continues with the rest of the
archive; it raises nothing and names nothing. -/
theorem tarLoop_skips_malformed_size (fuel : Nat) (tail : List Nat) :
    tarLoopAux (fuel + 1) (malformedSizeHeader ++ (padBlock ++ tail)) =
      tarLoopAux fuel tail := by
  have h512 : malformedSizeHeader.length = 512 := by rfl
  have hp512 : padBlock.length = 512 := by rfl
  have hne : (malformedSizeHeader ++ (padBlock ++ tail)).isEmpty = false := by
    simp [List.isEmpty_iff, malformedSizeHeader]
  have htake : (malformedSizeHeader ++ (padBlock ++ tail)).take 512 =
      malformedSizeHeader := List.take_left' h512
  have hdrop : (malformedSizeHeader ++ (padBlock ++ tail)).drop 512 =
      padBlock ++ tail := List.drop_left' h512
  have hdrop2 : (padBlock ++ tail).drop 512 = tail := List.drop_left' hp512
  have hname : (parseNameBytes malformedSizeHeader == "") = false := by rfl
  have hsize : parseOctal (parseSizeBytes malformedSizeHeader) = none := by rfl
  simp only [tarLoopAux, hne, htake, hdrop, hdrop2, hname, hsize, Bool.false_eq_true,
    if_false]

theorem jlookup_append (a b : List (String × JValue)) (k : String) :
    jlookup (a ++ b) k = match jlookup a k with
      | some v => some v
      | none => jlookup b k := by
  induction a with
  | nil => simp [jlookup]
  | cons kv rest ih =>
      by_cases h : kv.1 = k
      · simp [jlookup, h]
      · simp [jlookup, h, ih]

theorem setKey_append_of_not_mem (acc : List (String × JValue)) (k : String) (v : JValue)
    (h : jlookup acc k = none) : setKey acc k v = acc ++ [(k, v)] := by
  induction acc with
  | nil => rfl
  | cons kv rest ih =>
      simp only [jlookup] at h
      by_cases hk : kv.1 = k
      · rw [if_pos hk] at h; cases h
      · rw [if_neg hk] at h
        cases kv with
        | mk k2 v2 =>
            simp only [setKey]
            simp only at hk
            rw [if_neg hk, ih h]
            rfl

theorem jor_str_empty_default (s : String) : jor (some (.str s)) (.str "") = .str s := by
  by_cases h : s = ""
  · subst h; rfl
  · simp [jor, truthy, h]

theorem jor_bool_false_default (b : Bool) : jor (some (.bool b)) (.bool false) = .bool b := by
  cases b <;> rfl

theorem exportFieldBody_canon (f : CanonField) :
    exportFieldBody (canonFieldVal f) =
      .obj ([("tagKey", .str f.tagKey), ("type", .str f.ftype), ("label", .str f.name),
        ("helperText", .str f.helperText), ("universal", .bool f.universal)] ++
        (match f.options with
          | [] => []
          | x :: xs => [("options", .arr (x :: xs))])) := by
  cases hopts : f.options with
  | nil =>
      simp only [exportFieldBody, canonFieldVal, jget, jlookup, mkObjD, hopts]
      simp [jor_str_empty_default, jor_bool_false_default]
  | cons x xs =>
      simp only [exportFieldBody, canonFieldVal, jget, jlookup, mkObjD, hopts]
      simp [jor_str_empty_default, jor_bool_false_default]

theorem jor_str_of_ne (s : String) (d : JValue) (h : s ≠ "") :
    jor (some (.str s)) d = .str s := by
  simp [jor, truthy, h]

theorem roundTripField (f : CanonField) (h : canonFieldOk f) :
    unifiedConfigFieldEntry f.id (spreadWithId f.id (exportFieldBody (canonFieldVal f))) =
      canonFieldVal f := by
  obtain ⟨hid, hname, hkey, htype⟩ := h
  rw [exportFieldBody_canon]
  cases hu : f.universal <;> cases hopts : f.options <;> by_cases hh : f.helperText = "" <;>
    simp_all [spreadWithId, unifiedConfigFieldEntry, jget, jlookup, canonFieldVal, jor,
      truthy]

theorem unified_fields_roundtrip (cfl : List CanonField)
    (hok : ∀ f ∈ cfl, canonFieldOk f) :
    (((cfl.map (fun f => (f.id, exportFieldBody (canonFieldVal f)))).map
        (fun kv => (kv.1, spreadWithId kv.1 kv.2))).map
      (fun kv => unifiedConfigFieldEntry kv.1 kv.2)) = cfl.map canonFieldVal := by
  rw [List.map_map, List.map_map]
  apply List.map_congr_left
  intro f hf
  simp only [Function.comp]
  exact roundTripField f (hok f hf)

theorem export_fields_fold (cfl : List CanonField) :
    ∀ acc, (∀ f ∈ cfl, canonFieldOk f) → (cfl.map CanonField.id).Nodup →
      (∀ f ∈ cfl, jlookup acc f.id = none) →
      List.foldl exportFieldsStep acc (cfl.map canonFieldVal) =
        acc ++ cfl.map (fun f => (f.id, exportFieldBody (canonFieldVal f))) := by
  induction cfl with
  | nil => intro acc _ _ _; simp
  | cons f rest ih =>
      intro acc hok hnd hfresh
      have hmemf : f ∈ f :: rest := List.mem_cons_self f rest
      have hid : f.id ≠ "" := (hok f hmemf).1
      have hstep : exportFieldsStep acc (canonFieldVal f) =
          acc ++ [(f.id, exportFieldBody (canonFieldVal f))] := by
        simp only [exportFieldsStep]
        have h1 : truthyO (jget (canonFieldVal f) "id") = true := by
          simp [canonFieldVal, jget, jlookup, truthyO, truthy, hid]
        rw [if_pos h1]
        have h2 : jsToString ((jget (canonFieldVal f) "id").getD .null) = f.id := rfl
        rw [h2, setKey_append_of_not_mem _ _ _ (hfresh f hmemf)]
      simp only [List.map_cons, List.foldl_cons, hstep]
      have hnd2 : (∀ x ∈ rest, ¬x.id = f.id) ∧ (rest.map CanonField.id).Nodup := by
        simpa using hnd
      have hfr : ∀ g ∈ rest,
          jlookup (acc ++ [(f.id, exportFieldBody (canonFieldVal f))]) g.id = none := by
        intro g hg
        rw [jlookup_append, hfresh g (List.mem_cons_of_mem f hg)]
        have hne : f.id ≠ g.id := fun e => hnd2.1 g hg e.symm
        simp [jlookup, hne]
      rw [ih (acc ++ [(f.id, exportFieldBody (canonFieldVal f))])
        (fun g hg => hok g (List.mem_cons_of_mem f hg)) hnd2.2 hfr]
      simp

theorem find?_append_none {α : Type} (p : α → Bool) (l1 l2 : List α)
    (h : l1.find? p = none) : (l1 ++ l2).find? p = l2.find? p := by
  induction l1 with
  | nil => simp
  | cons a rest ih =>
      rw [List.find?_cons] at h
      cases hp : p a with
      | true => rw [hp] at h; cases h
      | false =>
          rw [hp] at h
          simp only [List.cons_append, List.find?_cons, hp]
          exact ih h

theorem icons_path_ne_config (p : String) (h : strStarts "icons/" p = true) :
    (p == "config.json") = false := by
  by_cases he : p = "config.json"
  · subst he
    simp [strStarts] at h
  · simp [he]

theorem strEnds_trans_json (p : String) (h : strEnds ".json" p = false) :
    strEnds "config.json" p = false := by
  by_cases hc : strEnds "config.json" p = true
  · exfalso
    simp only [strEnds, List.isSuffixOf_iff_suffix] at h hc
    have hsub : (".json").data <:+ ("config.json").data := by decide
    have hcontra : (".json").data <:+ p.data := hsub.trans hc
    rw [← List.isSuffixOf_iff_suffix] at hcontra
    rw [hcontra] at h
    cases h
  · simpa using hc

theorem zipStep_iconAssets (raw : List CFile) :
    ∀ acc : ZipAcc, (∀ r ∈ raw, strStarts "icons/" r.path = true ∧
        strEnds ".json" r.path = false) →
      raw.foldl (zipFileStep false) acc =
        { acc with files := acc.files ++
            raw.map (fun r => { r with name := lastSegment r.path }) } := by
  induction raw with
  | nil => intro acc _; simp
  | cons r rest ih =>
      intro acc hr
      have h1 := (hr r (List.mem_cons_self r rest)).1
      have h2 := (hr r (List.mem_cons_self r rest)).2
      have hstep : zipFileStep false acc r =
          { acc with files := acc.files ++ [{ r with name := lastSegment r.path }] } := by
        simp only [zipFileStep, h2, h1]
        simp
      simp only [List.foldl_cons, hstep]
      rw [ih _ (fun g hg => hr g (List.mem_cons_of_mem r hg))]
      simp

theorem generatePresetsJson_canon (mkvs tkvs ikvs : List (String × JValue))
    (cfl : List CanonField) (presetsV : JValue)
    (hok : ∀ f ∈ cfl, canonFieldOk f) (hnodup : (cfl.map CanonField.id).Nodup) :
    generatePresetsJson
      { metadata := .obj mkvs, fields := .arr (cfl.map canonFieldVal),
        presets := presetsV, translations := .obj tkvs, icons := .obj ikvs } =
      .obj [("categories", .obj []),
        ("fields", .obj (cfl.map (fun f => (f.id, exportFieldBody (canonFieldVal f))))),
        ("defaults", .obj [("area", .arr (presetsWithGeometry presetsV "area")),
          ("line", .arr (presetsWithGeometry presetsV "line")),
          ("point", .arr (presetsWithGeometry presetsV "point")),
          ("vertex", .arr []), ("relation", .arr [])])] := by
  simp only [generatePresetsJson]
  rw [export_fields_fold cfl [] hok hnodup (fun f _ => rfl)]
  simp

theorem idxFree_exportFieldBody (f : CanonField) (h : idxFreeList f.options = true) :
    idxFree (exportFieldBody (canonFieldVal f)) = true := by
  rw [exportFieldBody_canon]
  cases hopts : f.options with
  | nil => rfl
  | cons x xs =>
      rw [hopts] at h
      have e : idxFree (JValue.obj
          ([("tagKey", .str f.tagKey), ("type", .str f.ftype), ("label", .str f.name),
            ("helperText", .str f.helperText), ("universal", .bool f.universal)] ++
            [("options", .arr (x :: xs))])) = (idxFreeList (x :: xs) && true) := rfl
      rw [e, h]
      exact rfl

theorem idxFree_canonFieldVal (f : CanonField) (h : idxFreeList f.options = true) :
    idxFree (canonFieldVal f) = true := by
  have e : idxFree (canonFieldVal f) = (idxFreeList f.options && true) := rfl
  rw [e, h]
  exact rfl

theorem buildUnified_of_export (mkvs tkvs ikvs : List (String × JValue))
    (cfl : List CanonField) (presetsV : JValue)
    (hok : ∀ f ∈ cfl, canonFieldOk f) (hnodup : (cfl.map CanonField.id).Nodup)
    (hidx : ∀ f ∈ cfl, isIdxKey f.id = false) :
    buildUnifiedConfig
      [("metadata", .obj mkvs),
       ("presets", generatePresetsJson
         { metadata := .obj mkvs, fields := .arr (cfl.map canonFieldVal),
           presets := presetsV, translations := .obj tkvs, icons := .obj ikvs }),
       ("translations", .obj tkvs), ("icons", .obj ikvs)] =
      .obj [("metadata", .obj mkvs),
        ("presets", .arr [reconcilerDefaultsPreset]),
        ("fields", .arr (cfl.map canonFieldVal)),
        ("translations", .obj tkvs), ("icons", .obj ikvs)] := by
  rw [generatePresetsJson_canon mkvs tkvs ikvs cfl presetsV hok hnodup]
  have hkeys : ∀ kv ∈ cfl.map (fun f => (f.id, exportFieldBody (canonFieldVal f))),
      isIdxKey kv.1 = false := by
    intro kv hkv
    obtain ⟨f, hf, rfl⟩ := List.mem_map.mp hkv
    exact hidx f hf
  have hkeys2 : ∀ kv ∈ (cfl.map (fun f => (f.id, exportFieldBody (canonFieldVal f)))).map
      (fun kv => (kv.1, spreadWithId kv.1 kv.2)), isIdxKey kv.1 = false := by
    intro kv hkv
    obtain ⟨kv0, hkv0, rfl⟩ := List.mem_map.mp hkv
    exact hkeys kv0 hkv0
  have hstep : buildUnifiedConfig
      [("metadata", .obj mkvs),
       ("presets", .obj [("categories", .obj []),
         ("fields", .obj (cfl.map (fun f => (f.id, exportFieldBody (canonFieldVal f))))),
         ("defaults", .obj [("area", .arr (presetsWithGeometry presetsV "area")),
           ("line", .arr (presetsWithGeometry presetsV "line")),
           ("point", .arr (presetsWithGeometry presetsV "point")),
           ("vertex", .arr []), ("relation", .arr [])])]),
       ("translations", .obj tkvs), ("icons", .obj ikvs)] =
      JValue.obj [("metadata", JValue.obj mkvs),
        ("presets", JValue.arr [reconcilerDefaultsPreset]),
        ("fields", JValue.arr (List.map (fun kv => unifiedConfigFieldEntry kv.1 kv.2)
          (jsOrderKvs (List.map (fun kv => (kv.1, spreadWithId kv.1 kv.2))
            (jsOrderKvs (List.map (fun f => (f.id, exportFieldBody (canonFieldVal f))) cfl)))))),
        ("translations", JValue.obj tkvs), ("icons", JValue.obj ikvs)] := rfl
  rw [hstep, jsOrderKvs_eq_self hkeys, jsOrderKvs_eq_self hkeys2,
    unified_fields_roundtrip cfl hok]

theorem extractZip_export_shape (c1 c2 c3 c4 : JValue) (s5 s6 s8 : String)
    (b7 : List Nat) (raw : List CFile)
    (hraw : ∀ r ∈ raw, strStarts "icons/" r.path = true ∧ strEnds ".json" r.path = false) :
    extractZipFiles
      ([{ name := "metadata.json", path := "metadata.json", content := .json c1 },
        { name := "presets.json", path := "presets.json", content := .json c2 },
        { name := "translations.json", path := "translations.json", content := .json c3 },
        { name := "icons.json", path := "icons.json", content := .json c4 },
        { name := "VERSION", path := "VERSION", content := .text s5 },
        { name := "style.css", path := "style.css", content := .text s6 },
        { name := "icons.png", path := "icons.png", content := .binary b7 },
        { name := "icons.svg", path := "icons.svg", content := .text s8 }] ++ raw) =
      (([{ name := "metadata.json", path := "metadata.json", content := .json c1 },
         { name := "presets.json", path := "presets.json", content := .json c2 },
         { name := "translations.json", path := "translations.json", content := .json c3 },
         { name := "icons.json", path := "icons.json", content := .json c4 },
         { name := "VERSION", path := "VERSION", content := .text s5 },
         { name := "style.css", path := "style.css", content := .text s6 },
         { name := "icons.png", path := "icons.png", content := .binary b7 },
         { name := "icons.svg", path := "icons.svg", content := .text s8 }] : List CFile) ++
        raw.map (fun r => { r with name := lastSegment r.path })) ++
      [{ name := "config.json", path := "config.json",
         content := .json (jnorm (buildUnifiedConfig
           [("metadata", c1), ("presets", c2), ("translations", c3), ("icons", c4)])) }] := by
  have hany2 : raw.any (fun e => e.path == "config.json") = false :=
    List.any_eq_false.mpr (fun r hr => by
      simp [icons_path_ne_config r.path (hraw r hr).1])
  have hfind2 : raw.find? (fun e => e.path == "config.json") = none :=
    List.find?_eq_none.mpr (fun r hr => by
      simp [icons_path_ne_config r.path (hraw r hr).1])
  simp only [extractZipFiles, List.any_append, List.append_assoc]
  rw [hany2]
  rw [show (([{ name := "metadata.json", path := "metadata.json", content := .json c1 },
      { name := "presets.json", path := "presets.json", content := .json c2 },
      { name := "translations.json", path := "translations.json", content := .json c3 },
      { name := "icons.json", path := "icons.json", content := .json c4 },
      { name := "VERSION", path := "VERSION", content := .text s5 },
      { name := "style.css", path := "style.css", content := .text s6 },
      { name := "icons.png", path := "icons.png", content := .binary b7 },
      { name := "icons.svg", path := "icons.svg", content := .text s8 }] : List CFile).any
        (fun e => e.path == "config.json")) = false from rfl]
  rw [find?_append_none _ _ _ (by rfl), hfind2]
  rw [List.foldl_append]
  rw [show List.foldl (zipFileStep (false || false))
      { files := [], components := [], hasComponentFiles := false }
      ([{ name := "metadata.json", path := "metadata.json", content := .json c1 },
        { name := "presets.json", path := "presets.json", content := .json c2 },
        { name := "translations.json", path := "translations.json", content := .json c3 },
        { name := "icons.json", path := "icons.json", content := .json c4 },
        { name := "VERSION", path := "VERSION", content := .text s5 },
        { name := "style.css", path := "style.css", content := .text s6 },
        { name := "icons.png", path := "icons.png", content := .binary b7 },
        { name := "icons.svg", path := "icons.svg", content := .text s8 }] : List CFile) =
      { files := [{ name := "metadata.json", path := "metadata.json", content := .json c1 },
          { name := "presets.json", path := "presets.json", content := .json c2 },
          { name := "translations.json", path := "translations.json", content := .json c3 },
          { name := "icons.json", path := "icons.json", content := .json c4 },
          { name := "VERSION", path := "VERSION", content := .text s5 },
          { name := "style.css", path := "style.css", content := .text s6 },
          { name := "icons.png", path := "icons.png", content := .binary b7 },
          { name := "icons.svg", path := "icons.svg", content := .text s8 }],
        components := [("metadata", c1), ("presets", c2), ("translations", c3),
          ("icons", c4)],
        hasComponentFiles := true } from rfl]
  simp only [Bool.or_self]
  rw [zipStep_iconAssets raw _ hraw]
  simp

/-- Claim C1, amended: importing the archive produced by exporting a
canonical configuration (object metadata with a truthy `buildDate`, fields in
canonical shape with unique non-empty ids and non-empty name/tagKey/type,
object translations and icons, a non-empty icon asset list, and no
array-index-like object key anywhere — `JSON.stringify` and `for..in` would
move such keys to the front of their object) recovers `metadata`, `fields`,
`translations` and `icons` exactly — but not the presets: `createZipFile`
writes no preset records into the archive (its `presets.json` holds only
`categories`, the fields map and `defaults`), and the reconciler fabricates a
single spurious preset from the `defaults` key, so the imported configuration
carries exactly `[reconcilerDefaultsPreset]` regardless of the exported
presets. -/
theorem roundTrip_presets_lost (mkvs tkvs ikvs : List (String × JValue))
    (cfl : List CanonField) (presetsV : JValue) (raw : List CFile) (now : String)
    (hmeta : truthyO (jlookup mkvs "buildDate") = true)
    (hok : ∀ f ∈ cfl, canonFieldOk f)
    (hnodup : (cfl.map CanonField.id).Nodup)
    (hmf : idxFree (.obj mkvs) = true)
    (htf : idxFree (.obj tkvs) = true)
    (hif : idxFree (.obj ikvs) = true)
    (hpf : idxFree presetsV = true)
    (hfidx : ∀ f ∈ cfl, isIdxKey f.id = false ∧ idxFreeList f.options = true)
    (hraw : ∀ r ∈ raw, strStarts "icons/" r.path = true ∧ strEnds ".json" r.path = false) :
    roundTripConfig
      { metadata := .obj mkvs, fields := .arr (cfl.map canonFieldVal),
        presets := presetsV, translations := .obj tkvs, icons := .obj ikvs } raw now =
      { metadata := .obj mkvs, fields := .arr (cfl.map canonFieldVal),
        presets := .arr [reconcilerDefaultsPreset], translations := .obj tkvs,
        icons := .obj ikvs } := by
  have hfilter : List.filter (fun f => strStarts "icons/" f.path) raw = raw :=
    List.filter_eq_self.mpr (fun r hr => (hraw r hr).1)
  have hcanon := generatePresetsJson_canon mkvs tkvs ikvs cfl presetsV hok hnodup
  have hgfree : idxFree (generatePresetsJson
      { metadata := .obj mkvs, fields := .arr (cfl.map canonFieldVal),
        presets := presetsV, translations := .obj tkvs, icons := .obj ikvs }) = true := by
    rw [hcanon]
    show idxFreeKvs [("categories", .obj []),
      ("fields", .obj (cfl.map (fun f => (f.id, exportFieldBody (canonFieldVal f))))),
      ("defaults", .obj [("area", .arr (presetsWithGeometry presetsV "area")),
        ("line", .arr (presetsWithGeometry presetsV "line")),
        ("point", .arr (presetsWithGeometry presetsV "point")),
        ("vertex", .arr []), ("relation", .arr [])])] = true
    apply idxFreeKvs_of_forall
    intro kv hkv
    simp only [List.mem_cons, List.not_mem_nil, or_false] at hkv
    rcases hkv with rfl | rfl | rfl
    · exact ⟨by exact rfl, by exact rfl⟩
    · refine ⟨by exact rfl, ?_⟩
      show idxFreeKvs (cfl.map (fun f => (f.id, exportFieldBody (canonFieldVal f)))) = true
      apply idxFreeKvs_of_forall
      intro kv2 hkv2
      obtain ⟨f, hf, rfl⟩ := List.mem_map.mp hkv2
      exact ⟨(hfidx f hf).1, idxFree_exportFieldBody f (hfidx f hf).2⟩
    · refine ⟨by exact rfl, ?_⟩
      show idxFreeKvs [("area", .arr (presetsWithGeometry presetsV "area")),
        ("line", .arr (presetsWithGeometry presetsV "line")),
        ("point", .arr (presetsWithGeometry presetsV "point")),
        ("vertex", .arr []), ("relation", .arr [])] = true
      apply idxFreeKvs_of_forall
      intro kv2 hkv2
      simp only [List.mem_cons, List.not_mem_nil, or_false] at hkv2
      rcases hkv2 with rfl | rfl | rfl | rfl | rfl
      · exact ⟨by exact rfl, idxFree_presetsWithGeometry presetsV "area" hpf⟩
      · exact ⟨by exact rfl, idxFree_presetsWithGeometry presetsV "line" hpf⟩
      · exact ⟨by exact rfl, idxFree_presetsWithGeometry presetsV "point" hpf⟩
      · exact ⟨by exact rfl, by exact rfl⟩
      · exact ⟨by exact rfl, by exact rfl⟩
  simp only [roundTripConfig, importPipelineZip, createZipEntries, hfilter]
  rw [jnorm_of_idxFree _ hmf, jnorm_of_idxFree _ htf, jnorm_of_idxFree _ hif,
    jnorm_of_idxFree _ hgfree]
  rw [extractZip_export_shape _ _ _ _ _ _ _ _ raw hraw]
  rw [buildUnified_of_export mkvs tkvs ikvs cfl presetsV hok hnodup
    (fun f hf => (hfidx f hf).1)]
  have hufree : idxFree (JValue.obj
      [("metadata", JValue.obj mkvs), ("presets", JValue.arr [reconcilerDefaultsPreset]),
       ("fields", JValue.arr (cfl.map canonFieldVal)), ("translations", JValue.obj tkvs),
       ("icons", JValue.obj ikvs)]) = true := by
    show idxFreeKvs [("metadata", JValue.obj mkvs),
      ("presets", JValue.arr [reconcilerDefaultsPreset]),
      ("fields", JValue.arr (cfl.map canonFieldVal)), ("translations", JValue.obj tkvs),
      ("icons", JValue.obj ikvs)] = true
    apply idxFreeKvs_of_forall
    intro kv hkv
    simp only [List.mem_cons, List.not_mem_nil, or_false] at hkv
    rcases hkv with rfl | rfl | rfl | rfl | rfl
    · exact ⟨by exact rfl, hmf⟩
    · exact ⟨by exact rfl, by exact rfl⟩
    · refine ⟨by exact rfl, ?_⟩
      show idxFreeList (cfl.map canonFieldVal) = true
      apply idxFreeList_of_forall
      intro x hx
      obtain ⟨f, hf, rfl⟩ := List.mem_map.mp hx
      exact idxFree_canonFieldVal f (hfidx f hf).2
    · exact ⟨by exact rfl, htf⟩
    · exact ⟨by exact rfl, hif⟩
  rw [jnorm_of_idxFree _ hufree]
  have hprefnone : (([⟨"metadata.json", "metadata.json", FileContent.json (.obj mkvs)⟩,
      ⟨"presets.json", "presets.json", FileContent.json (generatePresetsJson ⟨.obj mkvs, .arr (cfl.map canonFieldVal), presetsV, .obj tkvs, .obj ikvs⟩)⟩,
      ⟨"translations.json", "translations.json", FileContent.json (.obj tkvs)⟩,
      ⟨"icons.json", "icons.json", FileContent.json (.obj ikvs)⟩,
      ⟨"VERSION", "VERSION", FileContent.text "1"⟩,
      ⟨"style.css", "style.css", FileContent.text "/* CoMapeo configuration styles */"⟩,
      ⟨"icons.png", "icons.png", FileContent.binary []⟩,
      ⟨"icons.svg", "icons.svg", FileContent.text "<svg xmlns=\"http://www.w3.org/2000/svg\" xmlns:xlink=\"http://www.w3.org/1999/xlink\"></svg>"⟩] : List CFile) ++
      raw.map (fun (r : CFile) => { r with name := lastSegment r.path })).find?
        (fun (f : CFile) => strEnds "config.json" f.path) = none := by
    apply List.find?_eq_none.mpr
    intro x hx
    rcases List.mem_append.mp hx with h8 | hmr
    · simp only [List.mem_cons, List.not_mem_nil, or_false] at h8
      rcases h8 with rfl | rfl | rfl | rfl | rfl | rfl | rfl | rfl <;> (rw [Bool.not_eq_true]; exact rfl)
    · obtain ⟨r, hr, rfl⟩ := List.mem_map.mp hmr
      have hj := strEnds_trans_json r.path (hraw r hr).2
      simp [hj]
  simp only [importConfigFn, assembleImport]
  rw [find?_append_none _ _ _ hprefnone]
  rw [show List.find? (fun f => strEnds "config.json" f.path)
      [(⟨"config.json", "config.json", FileContent.json (JValue.obj
        [("metadata", JValue.obj mkvs), ("presets", JValue.arr [reconcilerDefaultsPreset]),
         ("fields", JValue.arr (cfl.map canonFieldVal)), ("translations", JValue.obj tkvs),
         ("icons", JValue.obj ikvs)])⟩ : CFile)] =
      some ⟨"config.json", "config.json", FileContent.json (JValue.obj
        [("metadata", JValue.obj mkvs), ("presets", JValue.arr [reconcilerDefaultsPreset]),
         ("fields", JValue.arr (cfl.map canonFieldVal)), ("translations", JValue.obj tkvs),
         ("icons", JValue.obj ikvs)])⟩ from rfl]
  have hbd : truthyO (jget (JValue.obj mkvs) "buildDate") = true := by
    simpa [jget] using hmeta
  show (if truthyO (jget (JValue.obj mkvs) "buildDate") = true then
      ({ metadata := JValue.obj mkvs, fields := JValue.arr (cfl.map canonFieldVal),
         presets := JValue.arr [reconcilerDefaultsPreset], translations := JValue.obj tkvs,
         icons := JValue.obj ikvs } : ConfigState)
    else { metadata := setProp (JValue.obj mkvs) "buildDate" (JValue.str now),
           fields := JValue.arr (cfl.map canonFieldVal),
           presets := JValue.arr [reconcilerDefaultsPreset], translations := JValue.obj tkvs,
           icons := JValue.obj ikvs }) =
    ({ metadata := JValue.obj mkvs, fields := JValue.arr (cfl.map canonFieldVal),
       presets := JValue.arr [reconcilerDefaultsPreset], translations := JValue.obj tkvs,
       icons := JValue.obj ikvs } : ConfigState)
  rw [if_pos hbd]

/-- Counterexample to the round-trip claim as literally stated: exporting
`demoConfig` and importing the resulting archive yields the fabricated
`defaults` preset list, which differs from `demoConfig`'s own presets. -/
theorem roundTrip_c1_counter :
    (roundTripConfig demoConfig demoAssets "2024-06-01T00:00:00.000Z").presets =
      .arr [reconcilerDefaultsPreset] ∧
    jbeq (.arr [reconcilerDefaultsPreset]) demoConfig.presets = false :=
  ⟨rfl, rfl⟩

theorem roundTrip_presets_lost_witness :
    roundTripConfig demoConfig demoAssets "2024-06-01T00:00:00.000Z" =
      { demoConfig with presets := .arr [reconcilerDefaultsPreset] } :=
  roundTrip_presets_lost
    [("name", .str "demo"), ("version", .str "1.0.0"), ("fileVersion", .str "1"),
     ("buildDate", .str "2024-01-01T00:00:00.000Z")]
    [("es", .obj [("fields", .obj [])])]
    [("building", .obj [("src", .str "icons/building.svg")])]
    demoCanonFields demoConfig.presets demoAssets "2024-06-01T00:00:00.000Z"
    (by decide)
    (by
      intro f hf
      simp only [demoCanonFields, List.mem_singleton] at hf
      subst hf
      exact ⟨by decide, by decide, by decide, by decide⟩)
    (by decide)
    (by decide)
    (by decide)
    (by decide)
    (by decide)
    (by
      intro f hf
      simp only [demoCanonFields, List.mem_singleton] at hf
      subst hf
      exact ⟨by decide, by decide⟩)
    (by
      intro r hr
      simp only [demoAssets, List.mem_singleton] at hr
      subst hr
      exact ⟨rfl, rfl⟩)
